import Mathlib

/-!
Verification of the GLM checkpoint conversion script
(`src/transformers/models/glm/convert_glm_weights_to_hf.py`).

Strings are modelled as `List Char`; Python `dict`s as insertion-ordered
association lists; tensors as opaque values of a type parameter; file bytes
as `List Nat`; a raised exception as `none`/`Option`.
-/

/-- Boolean prefix test on character lists: `isPrefixB a s` is true when `a`
is an initial segment of `s`. -/
def isPrefixB : List Char → List Char → Bool
  | [], _ => true
  | _ :: _, [] => false
  | a :: as, b :: bs => a == b && isPrefixB as bs

/-- Boolean suffix test, mirroring Python `str.endswith`. -/
def endsWithB (s suf : List Char) : Bool :=
  isPrefixB suf.reverse s.reverse

/-- Splits off everything up to the first occurrence of `sep`; `none` when
`sep` does not occur. Helper for the Python `str.split(sep, maxsplit)` model. -/
def splitOnce (sep : Char) : List Char → Option (List Char × List Char)
  | [] => none
  | c :: cs =>
    if c = sep then some ([], cs)
    else (splitOnce sep cs).map (fun p => (c :: p.1, p.2))

/-- Python `s.split(sep, maxsplit)` for a one-character separator:
at most `maxs` splits, leftover kept whole in the final piece. -/
def pySplit (sep : Char) : Nat → List Char → List (List Char)
  | 0, s => [s]
  | m + 1, s =>
    match splitOnce sep s with
    | none => [s]
    | some (a, rest) => a :: pySplit sep m rest

/-- Decimal value of a digit string (no validation). -/
def digitsVal (s : List Char) : Nat :=
  s.foldl (fun acc c => acc * 10 + (c.toNat - '0'.toNat)) 0

/-- Parses a non-empty all-digit string, else `none`. -/
def decDigits (s : List Char) : Option Nat :=
  if s ≠ [] ∧ s.all (·.isDigit) then some (digitsVal s) else none

/-- Python `int(s)` on the strings arising here: an optional sign followed by
one or more decimal digits; anything else raises (`none`). -/
def pyInt (s : List Char) : Option Int :=
  match s with
  | '-' :: rest => (decDigits rest).map (fun n => -(n : Int))
  | '+' :: rest => (decDigits rest).map (fun n => (n : Int))
  | _ => (decDigits s).map (fun n => (n : Int))

/-- Fuel-driven body of Python `str.replace`: replaces each left-to-right
non-overlapping occurrence of `a` by `b`. The fuel is an upper bound on the
remaining string length, so callers passing `s.length` get the exact
semantics. -/
def replaceFuel (a b : List Char) : Nat → List Char → List Char
  | _, [] => []
  | 0, s => s
  | fuel + 1, c :: cs =>
    if isPrefixB a (c :: cs) && !a.isEmpty then
      b ++ replaceFuel a b fuel (cs.drop (a.length - 1))
    else
      c :: replaceFuel a b fuel cs

/-- Python `s.replace(a, b)`: every non-overlapping occurrence of `a` in `s`
(scanned left to right) is replaced by `b`; an empty pattern interleaves `b`
around every character. -/
def pyReplace (s a b : List Char) : List Char :=
  if a.isEmpty then b ++ s.flatMap (fun c => c :: b) else replaceFuel a b s.length s

/-- The ordered rename table `STATE_DICT_MAPPING` from the source, in its
exact insertion (iteration) order. -/
def STATE_DICT_MAPPING : List (String × String) :=
  [ ("transformer.", "model."),
    ("transformer.output_layer.", "lm_head."),
    (".embedding.", ".embed_tokens."),
    (".encoder.layers.", ".layers."),
    ("final_layernorm.", "norm."),
    ("rotary_pos_embed.", "rotary_emb."),
    ("self_attention.", "self_attn."),
    ("query_key_value.", "qkv_proj."),
    ("dense.", "o_proj."),
    ("dense_h_to_4h.", "gate_up_proj."),
    ("dense_4h_to_h.", "down_proj.") ]

/-- The per-key body of `convert_state_dict`: each rule of
`STATE_DICT_MAPPING` is applied in sequence by `str.replace`, later rules
operating on the already-substituted key. -/
def convertKey (key : List Char) : List Char :=
  STATE_DICT_MAPPING.foldl (fun k rule => pyReplace k rule.1.toList rule.2.toList) key

/-- Checks that the pattern `a` cannot begin to match at any position of the
block `blk`: for every non-empty suffix of `blk`, the comparison of `a`
against it fails already inside the block. -/
def blockClear (a : List Char) : List Char → Bool
  | [] => true
  | c :: rest => !(isPrefixB (a.take (c :: rest).length) (c :: rest)) && blockClear a rest

/-- Python-dict assignment `d[k] = v`: an existing key keeps its insertion
position and gets the new value; a new key is appended. -/
def dictInsert {V : Type} (d : List (List Char × V)) (k : List Char) (v : V) :
    List (List Char × V) :=
  if d.any (fun kv => kv.1 == k) then
    d.map (fun kv => if kv.1 == k then (k, v) else kv)
  else d ++ [(k, v)]

/-- The `convert_state_dict` function: builds a fresh dict, inserting each
entry under its renamed key with the value passed through unchanged. -/
def convert_state_dict {V : Type} (original_state_dict : List (List Char × V)) :
    List (List Char × V) :=
  original_state_dict.foldl
    (fun new_dict kv => dictInsert new_dict (convertKey kv.1) kv.2) []

/-- Whether the ordered rule list obeys the ordering discipline stated by the
spec: whenever an earlier rule's old-substring is a prefix of a later rule's
old-substring, the two are equal — that is, a longer (more specific)
old-substring never appears after a shorter one that is a proper prefix
of it. -/
def clashOrdered (m : List (String × String)) : Prop :=
  ∀ i j : Fin m.length, i < j →
    isPrefixB (m.get i).1.toList (m.get j).1.toList = true →
    (m.get i).1 = (m.get j).1

/-! Configuration model. JSON scalars are embedded as `ConfigVal`; Python
floats are modelled as rationals (every constant appearing in the script and
in the claims, such as `10000. * 1.5`, is exactly representable). -/

inductive ConfigVal where
  | vInt (n : Int)
  | vFloat (q : ℚ)
  | vBool (b : Bool)
deriving DecidableEq

/-- Python truthiness of a config scalar, as used by
`if not original_config.pop("multi_query_attention")`. -/
def pyTruthy : ConfigVal → Bool
  | .vInt n => n != 0
  | .vFloat q => q != 0
  | .vBool b => b

/-- Python `10000. * x` on a config scalar (always yields a float). -/
def mulFloat10000 : ConfigVal → ConfigVal
  | .vInt n => .vFloat (10000 * (n : ℚ))
  | .vFloat q => .vFloat (10000 * q)
  | .vBool b => .vFloat (if b then 10000 else 0)

/-- First-occurrence lookup in an insertion-ordered mapping. -/
def dictLookup {V : Type} : List (String × V) → String → Option V
  | [], _ => none
  | (k2, v) :: rest, k => if k2 = k then some v else dictLookup rest k

/-- Key-presence test. -/
def hasKey {V : Type} (c : List (String × V)) (k : String) : Bool :=
  (dictLookup c k).isSome

/-- Python `dict.pop(k)`: returns the value and the mapping without that
entry, or `none` (a `KeyError`) when the key is absent. -/
def dictPop {V : Type} : List (String × V) → String → Option (V × List (String × V))
  | [], _ => none
  | (k2, v) :: rest, k =>
    if k2 = k then some (v, rest)
    else (dictPop rest k).map (fun p => (p.1, (k2, v) :: p.2))

/-- The target `GlmConfig` record, with the fields the script passes. -/
structure GlmConfigT where
  vocab_size : ConfigVal
  hidden_size : ConfigVal
  intermediate_size : ConfigVal
  num_hidden_layers : ConfigVal
  num_attention_heads : ConfigVal
  num_key_value_heads : ConfigVal
  resid_pdrop : ConfigVal
  attention_dropout : ConfigVal
  max_position_embeddings : ConfigVal
  initializer_range : ConfigVal
  rms_norm_eps : ConfigVal
  rope_theta : ConfigVal
  use_rms_norm : ConfigVal
  apply_residual_connection_post_layernorm : ConfigVal
  post_layer_norm : ConfigVal
  use_cache : ConfigVal
  head_dim : ConfigVal
  attention_bias : ConfigVal
  linear_bias : ConfigVal
deriving DecidableEq

/-- The `convert_config` function: pops the source fields in the exact
evaluation order of the script (the assignment to `num_attention_heads`
first, then the keyword arguments left to right; the `multi_query_group_num`
pop happens only when the popped `multi_query_attention` value is truthy).
A failed pop (`KeyError`) aborts the whole translation. The leftover mapping
(reported by the script as unused keys) is returned alongside the record. -/
def convert_config (original_config : List (String × ConfigVal)) :
    Option (GlmConfigT × List (String × ConfigVal)) :=
  match dictPop original_config "num_attention_heads" with
  | none => none
  | some nah =>
  match dictPop nah.2 "padded_vocab_size" with
  | none => none
  | some p1 =>
  match dictPop p1.2 "hidden_size" with
  | none => none
  | some p2 =>
  match dictPop p2.2 "ffn_hidden_size" with
  | none => none
  | some p3 =>
  match dictPop p3.2 "num_hidden_layer" with
  | none => none
  | some p4 =>
  match dictPop p4.2 "multi_query_attention" with
  | none => none
  | some pm =>
  match (if pyTruthy pm.1 then dictPop pm.2 "multi_query_group_num"
         else some (nah.1, pm.2)) with
  | none => none
  | some pk =>
  match dictPop pk.2 "hidden_dropout" with
  | none => none
  | some p5 =>
  match dictPop p5.2 "attention_dropout" with
  | none => none
  | some p6 =>
  match dictPop p6.2 "max_position_embeddings" with
  | none => none
  | some p7 =>
  match dictPop p7.2 "initializer_range" with
  | none => none
  | some p8 =>
  match dictPop p8.2 "layernorm_epsilon" with
  | none => none
  | some p9 =>
  match dictPop p9.2 "rope_ratio" with
  | none => none
  | some pr =>
  match dictPop pr.2 "rmsnorm" with
  | none => none
  | some pa =>
  match dictPop pa.2 "apply_residual_connection_post_layernorm" with
  | none => none
  | some pb =>
  match dictPop pb.2 "post_layer_norm" with
  | none => none
  | some pc =>
  match dictPop pc.2 "use_cache" with
  | none => none
  | some pd =>
  match dictPop pd.2 "kv_channels" with
  | none => none
  | some pe =>
  match dictPop pe.2 "add_qkv_bias" with
  | none => none
  | some pf =>
  match dictPop pf.2 "add_bias_linear" with
  | none => none
  | some pg =>
  some ({ vocab_size := p1.1, hidden_size := p2.1, intermediate_size := p3.1,
          num_hidden_layers := p4.1, num_attention_heads := nah.1,
          num_key_value_heads := pk.1, resid_pdrop := p5.1,
          attention_dropout := p6.1, max_position_embeddings := p7.1,
          initializer_range := p8.1, rms_norm_eps := p9.1,
          rope_theta := mulFloat10000 pr.1, use_rms_norm := pa.1,
          apply_residual_connection_post_layernorm := pb.1,
          post_layer_norm := pc.1, use_cache := pd.1, head_dim := pe.1,
          attention_bias := pf.1, linear_bias := pg.1 }, pg.2)

/-- The source-config keys `convert_config` unconditionally pops, in pop
order. `multi_query_group_num` is additionally popped when the
`multi_query_attention` value is truthy. -/
def requiredConfigKeys : List String :=
  ["num_attention_heads", "padded_vocab_size", "hidden_size", "ffn_hidden_size",
   "num_hidden_layer", "multi_query_attention", "hidden_dropout", "attention_dropout",
   "max_position_embeddings", "initializer_range", "layernorm_epsilon", "rope_ratio",
   "rmsnorm", "apply_residual_connection_post_layernorm", "post_layer_norm",
   "use_cache", "kv_channels", "add_qkv_bias", "add_bias_linear"]

/-! Shard-merge model. A directory listing is a list of (filename, bytes)
pairs; file bytes are `List Nat`. -/

def safetensorsSuffix : List Char := ".safetensors".toList

/-- Model of `os.path.join(dir, name)` for POSIX paths. -/
def pathJoin (dir name : List Char) : List Char :=
  if isPrefixB ['/'] name then name
  else if dir = [] then name
  else if dir.getLast? = some '/' then dir ++ name
  else dir ++ '/' :: name

/-- The sort key of `merge_safetensors`: `int(x.split('-', 2)[1])`, applied
to a full path `x`. `none` models the `IndexError`/`ValueError` raised when
the token is absent or non-numeric. -/
def ordKey (path : List Char) : Option Int :=
  ((pySplit '-' 2 path)[1]?).bind pyInt

/-- Computes the sort key of every file, left to right; any failure raises
(the whole sort raises before anything is written). -/
def keyFiles : List (List Char × List Nat) → Option (List (Int × List Char × List Nat))
  | [] => some []
  | fc :: rest =>
    match ordKey fc.1, keyFiles rest with
    | some k, some acc => some ((k, fc.1, fc.2) :: acc)
    | _, _ => none

/-- Stable insertion step: a new element goes after every element whose key
is less than or equal to its own, matching Python's stable `sorted`. -/
def insertByKey (x : Int × List Char × List Nat) :
    List (Int × List Char × List Nat) → List (Int × List Char × List Nat)
  | [] => [x]
  | y :: ys => if y.1 ≤ x.1 then y :: insertByKey x ys else x :: y :: ys

/-- Stable sort by numeric key (insertion sort; agrees with Python `sorted`,
which is also stable). -/
def sortByKey (l : List (Int × List Char × List Nat)) :
    List (Int × List Char × List Nat) :=
  l.foldl (fun acc x => insertByKey x acc) []

/-- The `merge_safetensors` function over an abstract directory listing:
filter names ending in `.safetensors`, join each with the directory, sort by
`int(path.split('-', 2)[1])`, and concatenate the bytes. `none` models an
exception raised while computing sort keys (before the output file is
opened); `some bytes` models writing `bytes` to `consolidated.safetensors`. -/
def merge_safetensors (input_dir : List Char) (listing : List (List Char × List Nat)) :
    Option (List Nat) :=
  let all_files := (listing.filter (fun fc => endsWithB fc.1 safetensorsSuffix)).map
    (fun fc => (pathJoin input_dir fc.1, fc.2))
  match keyFiles all_files with
  | none => none
  | some keyed => some ((sortByKey keyed).flatMap (fun kfc => kfc.2.2))

/-- Specification-side merge, following the spec's words rather than the
source: the ordinal is the second hyphen-delimited segment of each
FILENAME (not of the joined path). Used to compare the implementation
against the spec's description. -/
def specMergeBytes (listing : List (List Char × List Nat)) : Option (List Nat) :=
  let shard_files := listing.filter (fun fc => endsWithB fc.1 safetensorsSuffix)
  match keyFiles shard_files with
  | none => none
  | some keyed => some ((sortByKey keyed).flatMap (fun kfc => kfc.2.2))

/-! Pipeline model for `convert_glm_model`. -/

/-- One persisted artifact, in the order the script writes them. -/
inductive PipeEvent where
  | wroteConfig (c : GlmConfigT)
  | wroteMergedShards (bytes : List Nat)
  | wroteModelWeights (sd : List (List Char × List Nat))
  | wroteTokenizer
deriving DecidableEq

/-- Control flow of `convert_glm_model`: translate the config (a missing
required field raises here, before anything is written), save it, merge the
shards (writing the consolidated file), load and rename the weights, load
them into the model skeleton (strict; `loadOk` stands for that external
check), save the model, then convert and save the tokenizer (`tokOk` stands
for the external reference-tokenizer fetch). `safeLoad` stands for the
external safetensors parser. Returns the ordered list of artifacts written
and whether the run completed. -/
def convert_glm_model (original_config : List (String × ConfigVal))
    (input_dir : List Char) (listing : List (List Char × List Nat))
    (safeLoad : List Nat → List (List Char × List Nat))
    (loadOk : List (List Char × List Nat) → Bool) (tokOk : Bool) :
    List PipeEvent × Bool :=
  match convert_config original_config with
  | none => ([], false)
  | some (config, _) =>
    match merge_safetensors input_dir listing with
    | none => ([PipeEvent.wroteConfig config], false)
    | some bytes =>
      let new_dict := convert_state_dict (safeLoad bytes)
      if loadOk new_dict then
        if tokOk then
          ([PipeEvent.wroteConfig config, PipeEvent.wroteMergedShards bytes,
            PipeEvent.wroteModelWeights new_dict, PipeEvent.wroteTokenizer], true)
        else
          ([PipeEvent.wroteConfig config, PipeEvent.wroteMergedShards bytes,
            PipeEvent.wroteModelWeights new_dict], false)
      else ([PipeEvent.wroteConfig config, PipeEvent.wroteMergedShards bytes], false)

/-! Tokenizer post-processor model. -/

/-- One parsed template piece: a spliced input sequence or a literal special
token, each carrying a type identifier. -/
inductive Piece where
  | spliceA (ty : Nat)
  | spliceB (ty : Nat)
  | tok (id ty : Nat)
deriving DecidableEq

/-- The post-processor configurations the script builds. -/
inductive PostProcessor where
  | byteLevel (trim_offsets : Bool)
  | templateProcessing (single : String) (pairT : String)
      (special_tokens : List (String × Nat))
  | seqPP (ps : List PostProcessor)

/-- Looks a literal template token up in the special-token table. -/
def lookupTok : List (String × Nat) → List Char → Option Nat
  | [], _ => none
  | (s, id) :: rest, name => if s.toList = name then some id else lookupTok rest name

/-- Full split on a separator character. -/
def splitAll (sep : Char) (s : List Char) : List (List Char) :=
  pySplit sep s.length s

/-- Modelled from the spec: parsing of one `TemplateProcessing` piece of the
external tokenizers library, in the `name:type` form the script uses. -/
def parsePiece (specials : List (String × Nat)) (s : List Char) : Option Piece :=
  match splitAll ':' s with
  | [name, ty] =>
    (decDigits ty).bind (fun t =>
      if name = "$A".toList then some (Piece.spliceA t)
      else if name = "$B".toList then some (Piece.spliceB t)
      else (lookupTok specials name).map (fun id => Piece.tok id t))
  | _ => none

/-- Parses every space-separated piece; any failure fails the template. -/
def parsePieces (specials : List (String × Nat)) : List (List Char) → Option (List Piece)
  | [] => some []
  | s :: rest =>
    match parsePiece specials s, parsePieces specials rest with
    | some p, some ps => some (p :: ps)
    | _, _ => none

/-- Parses a whole template string. -/
def parseTemplate (specials : List (String × Nat)) (tmpl : String) : Option (List Piece) :=
  parsePieces specials (splitAll ' ' tmpl.toList)

/-- Token ids and type ids contributed by one piece. -/
def pieceOut (p : Piece) (A B : List Nat) : List Nat × List Nat :=
  match p with
  | .spliceA ty => (A, List.replicate A.length ty)
  | .spliceB ty => (B, List.replicate B.length ty)
  | .tok id ty => ([id], [ty])

/-- Concatenates the outputs of all pieces. -/
def applyPieces (ps : List Piece) (A B : List Nat) : List Nat × List Nat :=
  match ps with
  | [] => ([], [])
  | p :: rest =>
    let h := pieceOut p A B
    let t := applyPieces rest A B
    (h.1 ++ t.1, h.2 ++ t.2)

/-- A post-processing input: one tokenized sequence or a pair. -/
inductive PPInput where
  | single (A : List Nat)
  | pair (A B : List Nat)

/-- Modelled from the spec: token-level semantics of a post-processor
sequence of the external tokenizers library. A byte-level member only
adjusts character offsets (not modelled) and leaves token ids and sequence
structure unchanged; a terminal template member instantiates its template;
shapes the script never builds are left unmodelled (`none`). -/
def ppSeqTokens : List PostProcessor → PPInput → Option (List Nat × List Nat)
  | [], .single A => some (A, List.replicate A.length 0)
  | [], .pair A B => some (A ++ B, List.replicate A.length 0 ++ List.replicate B.length 1)
  | .byteLevel _ :: rest, inp => ppSeqTokens rest inp
  | .templateProcessing s p sp :: rest, inp =>
    match rest, inp with
    | [], .single A => (parseTemplate sp s).map (fun ps => applyPieces ps A [])
    | [], .pair A B => (parseTemplate sp p).map (fun ps => applyPieces ps A B)
    | _ :: _, _ => none
  | .seqPP _ :: _, _ => none

/-- Token-level semantics of a single post-processor. -/
def ppTokens (p : PostProcessor) (inp : PPInput) : Option (List Nat × List Nat) :=
  match p with
  | .seqPP ps => ppSeqTokens ps inp
  | q => ppSeqTokens [q] inp

/-- The post-processor built by `GlmConverter.converted`. -/
def glm_post_processor : PostProcessor :=
  .seqPP [ .byteLevel false,
    .templateProcessing "[gMASK]:0 <sop>:0 $A:0" "[gMASK]:0 <sop>:0 $A:0 $B:1"
      [("[gMASK]", 151331), ("<sop>", 151333)] ]

/-! Concrete sample inputs used by witnesses. -/

/-- A complete source configuration (with one extra key, `num_layers`,
exercising the leftover-keys report). -/
def sampleConfig : List (String × ConfigVal) :=
  [("num_layers", .vInt 40),
   ("padded_vocab_size", .vInt 151552),
   ("hidden_size", .vInt 4096),
   ("ffn_hidden_size", .vInt 13696),
   ("num_hidden_layer", .vInt 40),
   ("num_attention_heads", .vInt 32),
   ("multi_query_attention", .vBool true),
   ("multi_query_group_num", .vInt 2),
   ("hidden_dropout", .vFloat 0),
   ("attention_dropout", .vFloat 0),
   ("max_position_embeddings", .vInt 131072),
   ("initializer_range", .vFloat (2 / 125)),
   ("layernorm_epsilon", .vFloat (1 / 100000)),
   ("rope_ratio", .vFloat (3 / 2)),
   ("rmsnorm", .vBool true),
   ("apply_residual_connection_post_layernorm", .vBool false),
   ("post_layer_norm", .vBool true),
   ("use_cache", .vBool true),
   ("kv_channels", .vInt 128),
   ("add_qkv_bias", .vBool true),
   ("add_bias_linear", .vBool false)]

/-- The record `convert_config` produces from `sampleConfig`. -/
def sampleConverted : GlmConfigT :=
  { vocab_size := .vInt 151552, hidden_size := .vInt 4096,
    intermediate_size := .vInt 13696, num_hidden_layers := .vInt 40,
    num_attention_heads := .vInt 32, num_key_value_heads := .vInt 2,
    resid_pdrop := .vFloat 0, attention_dropout := .vFloat 0,
    max_position_embeddings := .vInt 131072, initializer_range := .vFloat (2 / 125),
    rms_norm_eps := .vFloat (1 / 100000), rope_theta := .vFloat 15000,
    use_rms_norm := .vBool true,
    apply_residual_connection_post_layernorm := .vBool false,
    post_layer_norm := .vBool true, use_cache := .vBool true,
    head_dim := .vInt 128, attention_bias := .vBool true,
    linear_bias := .vBool false }

/-! Basic lemmas about the `str.replace` model. -/

theorem isPrefixB_iff_append (a s : List Char) :
    isPrefixB a s = true ↔ ∃ t, s = a ++ t := by
  induction a generalizing s with
  | nil => simp [isPrefixB]
  | cons c cs ih =>
    cases s with
    | nil => simp [isPrefixB]
    | cons d ds =>
      simp only [isPrefixB, Bool.and_eq_true, beq_iff_eq, ih, List.cons_append,
        List.cons.injEq]
      constructor
      · rintro ⟨rfl, t, rfl⟩; exact ⟨t, rfl, rfl⟩
      · rintro ⟨t, rfl, rfl⟩; exact ⟨rfl, t, rfl⟩

theorem isPrefixB_append_self (a t : List Char) : isPrefixB a (a ++ t) = true :=
  (isPrefixB_iff_append a (a ++ t)).2 ⟨t, rfl⟩

theorem isPrefixB_take_false {a b : List Char}
    (h : isPrefixB (a.take b.length) b = false) (y : List Char) :
    isPrefixB a (b ++ y) = false := by
  induction b generalizing a with
  | nil => simp [isPrefixB] at h
  | cons c bs ih =>
    cases a with
    | nil => simp [isPrefixB] at h
    | cons x as =>
      simp only [List.length_cons, List.take_succ_cons, isPrefixB,
        Bool.and_eq_false_iff] at h
      simp only [List.cons_append, isPrefixB, Bool.and_eq_false_iff]
      rcases h with h | h
      · exact Or.inl h
      · exact Or.inr (ih h)

theorem replaceFuel_congr (a b : List Char) :
    ∀ f g s, s.length ≤ f → s.length ≤ g → replaceFuel a b f s = replaceFuel a b g s := by
  intro f
  induction f with
  | zero =>
    intro g s hf _
    have : s = [] := List.length_eq_zero.1 (Nat.le_zero.1 hf)
    subst this
    cases g <;> rfl
  | succ f ih =>
    intro g s hf hg
    cases s with
    | nil => cases g <;> rfl
    | cons c cs =>
      cases g with
      | zero => simp at hg
      | succ g =>
        simp only [replaceFuel]
        by_cases hc : (isPrefixB a (c :: cs) && !a.isEmpty) = true
        · simp only [hc, if_true]
          have hlen : (cs.drop (a.length - 1)).length ≤ cs.length := by
            simp [List.length_drop]
          have h1 : (cs.drop (a.length - 1)).length ≤ f :=
            le_trans hlen (Nat.le_of_succ_le_succ (by simpa using hf))
          have h2 : (cs.drop (a.length - 1)).length ≤ g :=
            le_trans hlen (Nat.le_of_succ_le_succ (by simpa using hg))
          rw [ih g _ h1 h2]
        · simp only [Bool.not_eq_true] at hc
          simp only [hc, Bool.false_eq_true, if_false]
          have h1 : cs.length ≤ f := Nat.le_of_succ_le_succ (by simpa using hf)
          have h2 : cs.length ≤ g := Nat.le_of_succ_le_succ (by simpa using hg)
          rw [ih g _ h1 h2]

theorem pyReplace_nil (a b : List Char) (ha : a.isEmpty = false) :
    pyReplace [] a b = [] := by
  simp only [pyReplace, ha, Bool.false_eq_true, if_false]
  rfl

theorem pyReplace_cons (a b : List Char) (c : Char) (cs : List Char)
    (ha : a.isEmpty = false) :
    pyReplace (c :: cs) a b =
      if isPrefixB a (c :: cs) then b ++ pyReplace (cs.drop (a.length - 1)) a b
      else c :: pyReplace cs a b := by
  simp only [pyReplace, ha, Bool.false_eq_true, if_false, List.length_cons, replaceFuel,
    Bool.not_false, Bool.and_true]
  by_cases hc : isPrefixB a (c :: cs) = true
  · simp only [hc, if_true]
    congr 1
    exact replaceFuel_congr a b cs.length (cs.drop (a.length - 1)).length _
      (by simp [List.length_drop]) le_rfl
  · simp only [Bool.not_eq_true] at hc
    simp only [hc, Bool.false_eq_true, if_false]

theorem pyReplace_prefix_match (a b s : List Char) (ha : a ≠ []) :
    pyReplace (a ++ s) a b = b ++ pyReplace s a b := by
  cases a with
  | nil => exact absurd rfl ha
  | cons c cs =>
    rw [List.cons_append, pyReplace_cons _ _ _ _ (by simp)]
    rw [if_pos (show isPrefixB (c :: cs) (c :: (cs ++ s)) = true from
      isPrefixB_append_self (c :: cs) s)]
    congr 2
    simp

theorem pyReplace_block (a b blk : List Char) (ha : a.isEmpty = false)
    (h : blockClear a blk = true) (y : List Char) :
    pyReplace (blk ++ y) a b = blk ++ pyReplace y a b := by
  induction blk with
  | nil => rfl
  | cons c rest ih =>
    simp only [blockClear, Bool.and_eq_true, Bool.not_eq_true'] at h
    have hfalse : isPrefixB a (c :: (rest ++ y)) = false := by
      have := isPrefixB_take_false (a := a) (b := c :: rest) h.1 y
      simpa using this
    rw [List.cons_append, pyReplace_cons _ _ _ _ ha, if_neg (by simp [hfalse]), ih h.2]
    rfl

/-! Prefix preservation through the rename rules, for keys that start with
the source head-layer name. -/

theorem mOut_split :
    "model.output_layer.".toList = "model.output_layer".toList ++ ['.'] := by decide

theorem mOut_cons_append (w : List Char) :
    "model.output_layer".toList ++ ('.' :: w) = "model.output_layer.".toList ++ w := by
  rw [mOut_split, List.append_assoc]
  rfl

theorem pres_clear (p q : List Char) (hp : p.isEmpty = false)
    (hclear : blockClear p "model.output_layer.".toList = true)
    (s : List Char) (hs : isPrefixB "model.output_layer.".toList s = true) :
    isPrefixB "model.output_layer.".toList (pyReplace s p q) = true := by
  obtain ⟨t, rfl⟩ := (isPrefixB_iff_append _ _).1 hs
  rw [pyReplace_block p q _ hp hclear]
  exact isPrefixB_append_self _ _

theorem pres_dot (p : List Char) (q' : List Char) (hp : p.isEmpty = false)
    (hclear : blockClear p "model.output_layer".toList = true)
    (s : List Char) (hs : isPrefixB "model.output_layer.".toList s = true) :
    isPrefixB "model.output_layer.".toList (pyReplace s p ('.' :: q')) = true := by
  obtain ⟨t, rfl⟩ := (isPrefixB_iff_append _ _).1 hs
  have hsp : "model.output_layer.".toList ++ t = "model.output_layer".toList ++ ('.' :: t) :=
    (mOut_cons_append t).symm
  rw [hsp, pyReplace_block p _ _ hp hclear, pyReplace_cons p ('.' :: q') '.' t hp]
  by_cases hm : isPrefixB p ('.' :: t) = true
  · rw [if_pos hm, List.cons_append, mOut_cons_append]
    exact isPrefixB_append_self _ _
  · rw [if_neg (by simp [Bool.not_eq_true] at hm; simp [hm]), mOut_cons_append]
    exact isPrefixB_append_self _ _

theorem convert_first_rule (r : List Char) :
    isPrefixB "model.output_layer.".toList
      (pyReplace ("transformer.output_layer.".toList ++ r)
        "transformer.".toList "model.".toList) = true := by
  have h1 : "transformer.output_layer.".toList ++ r
      = "transformer.".toList ++ ("output_layer.".toList ++ r) := by
    rw [show "transformer.output_layer.".toList
      = "transformer.".toList ++ "output_layer.".toList by decide, List.append_assoc]
  rw [h1, pyReplace_prefix_match _ _ _ (by decide),
    pyReplace_block _ _ "output_layer.".toList (by decide) (by decide) r]
  rw [show "model.".toList ++ ("output_layer.".toList
        ++ pyReplace r "transformer.".toList "model.".toList)
      = "model.output_layer.".toList
        ++ pyReplace r "transformer.".toList "model.".toList by
    rw [show "model.output_layer.".toList
      = "model.".toList ++ "output_layer.".toList by decide, List.append_assoc]]
  exact isPrefixB_append_self _ _

theorem foldl_rules_pres (rules : List (String × String))
    (hrules : ∀ ru ∈ rules, ∀ s : List Char,
      isPrefixB "model.output_layer.".toList s = true →
      isPrefixB "model.output_layer.".toList (pyReplace s ru.1.toList ru.2.toList) = true)
    (s : List Char) (hs : isPrefixB "model.output_layer.".toList s = true) :
    isPrefixB "model.output_layer.".toList
      (rules.foldl (fun k rule => pyReplace k rule.1.toList rule.2.toList) s) = true := by
  induction rules generalizing s with
  | nil => simpa using hs
  | cons ru rest ih =>
    rw [List.foldl_cons]
    exact ih (fun r2 hr => hrules r2 (List.mem_cons_of_mem _ hr)) _
      (hrules ru (List.mem_cons_self _ _) s hs)

theorem convertKey_output_layer (key : List Char)
    (h : isPrefixB "transformer.output_layer.".toList key = true) :
    isPrefixB "model.output_layer.".toList (convertKey key) = true := by
  obtain ⟨r, rfl⟩ := (isPrefixB_iff_append _ _).1 h
  have hck : convertKey ("transformer.output_layer.".toList ++ r)
      = (STATE_DICT_MAPPING.drop 1).foldl
          (fun k rule => pyReplace k rule.1.toList rule.2.toList)
          (pyReplace ("transformer.output_layer.".toList ++ r)
            "transformer.".toList "model.".toList) := by
    simp [convertKey, STATE_DICT_MAPPING]
  rw [hck]
  refine foldl_rules_pres _ ?_ _ (convert_first_rule r)
  intro ru hru
  simp only [STATE_DICT_MAPPING, List.drop, List.mem_cons, List.not_mem_nil, or_false] at hru
  rcases hru with rfl | rfl | rfl | rfl | rfl | rfl | rfl | rfl | rfl | rfl
  · exact pres_clear _ _ (by decide) (by decide)
  · exact fun s hs => pres_dot ".embedding.".toList "embed_tokens.".toList
      (by decide) (by decide) s hs
  · exact fun s hs => pres_dot ".encoder.layers.".toList "layers.".toList
      (by decide) (by decide) s hs
  · exact pres_clear _ _ (by decide) (by decide)
  · exact pres_clear _ _ (by decide) (by decide)
  · exact pres_clear _ _ (by decide) (by decide)
  · exact pres_clear _ _ (by decide) (by decide)
  · exact pres_clear _ _ (by decide) (by decide)
  · exact pres_clear _ _ (by decide) (by decide)
  · exact pres_clear _ _ (by decide) (by decide)

/-! Lemmas about the Python-dict model. -/

theorem hasKey_false {V : Type} {c : List (String × V)} {k : String} :
    hasKey c k = false ↔ dictLookup c k = none := by
  unfold hasKey
  cases dictLookup c k <;> simp

theorem hasKey_true {V : Type} {c : List (String × V)} {k : String} :
    hasKey c k = true ↔ ∃ v, dictLookup c k = some v := by
  unfold hasKey
  cases dictLookup c k <;> simp

theorem dictPop_none {V : Type} {c : List (String × V)} {k : String}
    (h : dictLookup c k = none) : dictPop c k = none := by
  induction c with
  | nil => rfl
  | cons kv rest ih =>
    obtain ⟨k2, v⟩ := kv
    simp only [dictLookup] at h
    by_cases he : k2 = k
    · simp [he] at h
    · simp only [if_neg he] at h
      simp [dictPop, if_neg he, ih h]

theorem dictPop_some_lookup {V : Type} {c c2 : List (String × V)} {k : String} {v : V}
    (h : dictPop c k = some (v, c2)) : dictLookup c k = some v := by
  induction c generalizing c2 with
  | nil => simp [dictPop] at h
  | cons kv rest ih =>
    obtain ⟨ka, va⟩ := kv
    by_cases he : ka = k
    · simp only [dictPop, if_pos he, Option.some.injEq, Prod.mk.injEq] at h
      simp [dictLookup, if_pos he, h.1]
    · simp only [dictPop, if_neg he] at h
      cases h2 : dictPop rest k with
      | none => rw [h2] at h; simp at h
      | some p =>
        rw [h2] at h
        simp only [Option.map_some', Option.some.injEq, Prod.mk.injEq] at h
        simp only [dictLookup, if_neg he]
        exact ih (show dictPop rest k = some (v, p.2) by rw [h2, ← h.1])

theorem dictPop_some_of_lookup {V : Type} {c : List (String × V)} {k : String} {v : V}
    (h : dictLookup c k = some v) : ∃ c2, dictPop c k = some (v, c2) := by
  induction c with
  | nil => simp [dictLookup] at h
  | cons kv rest ih =>
    obtain ⟨ka, va⟩ := kv
    by_cases he : ka = k
    · simp only [dictLookup, if_pos he, Option.some.injEq] at h
      exact ⟨rest, by simp [dictPop, if_pos he, h]⟩
    · simp only [dictLookup, if_neg he] at h
      obtain ⟨c2, hc2⟩ := ih h
      exact ⟨(ka, va) :: c2, by simp [dictPop, if_neg he, hc2]⟩

theorem pop_step {V : Type} {c : List (String × V)} {k : String}
    (h : hasKey c k = true) :
    ∃ v c2, dictPop c k = some (v, c2) ∧ dictLookup c k = some v := by
  obtain ⟨v, hv⟩ := hasKey_true.1 h
  obtain ⟨c2, hc2⟩ := dictPop_some_of_lookup hv
  exact ⟨v, c2, hc2, hv⟩

theorem dictPop_preserve {V : Type} {c c2 : List (String × V)} {k : String} {v : V}
    (h : dictPop c k = some (v, c2)) {k2 : String} (hne : k2 ≠ k) :
    dictLookup c2 k2 = dictLookup c k2 := by
  induction c generalizing c2 with
  | nil => simp [dictPop] at h
  | cons kv rest ih =>
    obtain ⟨ka, va⟩ := kv
    by_cases he : ka = k
    · simp only [dictPop, if_pos he, Option.some.injEq, Prod.mk.injEq] at h
      have hka2 : ka ≠ k2 := fun hh => hne (hh ▸ he)
      rw [← h.2]
      simp [dictLookup, if_neg hka2]
    · simp only [dictPop, if_neg he] at h
      cases h2 : dictPop rest k with
      | none => rw [h2] at h; simp at h
      | some p =>
        rw [h2] at h
        simp only [Option.map_some', Option.some.injEq, Prod.mk.injEq] at h
        rw [← h.2]
        by_cases hk2 : ka = k2
        · simp [dictLookup, if_pos hk2]
        · simp only [dictLookup, if_neg hk2]
          exact ih (show dictPop rest k = some (v, p.2) by rw [h2, ← h.1])

theorem hasKey_preserve {V : Type} {c c2 : List (String × V)} {k : String} {v : V}
    (h : dictPop c k = some (v, c2)) {k2 : String} (hne : k2 ≠ k) :
    hasKey c2 k2 = hasKey c k2 := by
  unfold hasKey
  rw [dictPop_preserve h hne]

theorem convert_config_total (cfg : List (String × ConfigVal)) (mv : ConfigVal)
    (hall : ∀ k ∈ requiredConfigKeys, hasKey cfg k = true)
    (hmqa : dictLookup cfg "multi_query_attention" = some mv)
    (hgrp : pyTruthy mv = true → hasKey cfg "multi_query_group_num" = true) :
    ∃ t rest, convert_config cfg = some (t, rest) ∧
      (∀ g, pyTruthy mv = true → dictLookup cfg "multi_query_group_num" = some g →
        t.num_key_value_heads = g) ∧
      (∀ n, pyTruthy mv = false → dictLookup cfg "num_attention_heads" = some n →
        t.num_key_value_heads = n) ∧
      (∀ r, dictLookup cfg "rope_ratio" = some r → t.rope_theta = mulFloat10000 r) := by
  obtain ⟨v1, c1, h1, hl1⟩ := pop_step (hall "num_attention_heads" (by decide))
  have I1 : ∀ k2 ∈ ["padded_vocab_size", "hidden_size", "ffn_hidden_size", "num_hidden_layer", "multi_query_attention", "multi_query_group_num", "hidden_dropout", "attention_dropout", "max_position_embeddings", "initializer_range", "layernorm_epsilon", "rope_ratio", "rmsnorm", "apply_residual_connection_post_layernorm", "post_layer_norm", "use_cache", "kv_channels", "add_qkv_bias", "add_bias_linear"],
      dictLookup c1 k2 = dictLookup cfg k2 := fun k2 hm =>
    dictPop_preserve h1 (fun he => absurd (he ▸ hm) (by decide))
  have hp2 : hasKey c1 "padded_vocab_size" = true := by
    rw [hasKey, I1 _ (by decide)]
    exact hall _ (by decide)
  obtain ⟨v2, c2, h2, hl2⟩ := pop_step hp2
  have I2 : ∀ k2 ∈ ["hidden_size", "ffn_hidden_size", "num_hidden_layer", "multi_query_attention", "multi_query_group_num", "hidden_dropout", "attention_dropout", "max_position_embeddings", "initializer_range", "layernorm_epsilon", "rope_ratio", "rmsnorm", "apply_residual_connection_post_layernorm", "post_layer_norm", "use_cache", "kv_channels", "add_qkv_bias", "add_bias_linear"],
      dictLookup c2 k2 = dictLookup cfg k2 := fun k2 hm =>
    (dictPop_preserve h2 (fun he => absurd (he ▸ hm) (by decide))).trans
      (I1 k2 (List.mem_cons_of_mem _ hm))
  have hp3 : hasKey c2 "hidden_size" = true := by
    rw [hasKey, I2 _ (by decide)]
    exact hall _ (by decide)
  obtain ⟨v3, c3, h3, hl3⟩ := pop_step hp3
  have I3 : ∀ k2 ∈ ["ffn_hidden_size", "num_hidden_layer", "multi_query_attention", "multi_query_group_num", "hidden_dropout", "attention_dropout", "max_position_embeddings", "initializer_range", "layernorm_epsilon", "rope_ratio", "rmsnorm", "apply_residual_connection_post_layernorm", "post_layer_norm", "use_cache", "kv_channels", "add_qkv_bias", "add_bias_linear"],
      dictLookup c3 k2 = dictLookup cfg k2 := fun k2 hm =>
    (dictPop_preserve h3 (fun he => absurd (he ▸ hm) (by decide))).trans
      (I2 k2 (List.mem_cons_of_mem _ hm))
  have hp4 : hasKey c3 "ffn_hidden_size" = true := by
    rw [hasKey, I3 _ (by decide)]
    exact hall _ (by decide)
  obtain ⟨v4, c4, h4, hl4⟩ := pop_step hp4
  have I4 : ∀ k2 ∈ ["num_hidden_layer", "multi_query_attention", "multi_query_group_num", "hidden_dropout", "attention_dropout", "max_position_embeddings", "initializer_range", "layernorm_epsilon", "rope_ratio", "rmsnorm", "apply_residual_connection_post_layernorm", "post_layer_norm", "use_cache", "kv_channels", "add_qkv_bias", "add_bias_linear"],
      dictLookup c4 k2 = dictLookup cfg k2 := fun k2 hm =>
    (dictPop_preserve h4 (fun he => absurd (he ▸ hm) (by decide))).trans
      (I3 k2 (List.mem_cons_of_mem _ hm))
  have hp5 : hasKey c4 "num_hidden_layer" = true := by
    rw [hasKey, I4 _ (by decide)]
    exact hall _ (by decide)
  obtain ⟨v5, c5, h5, hl5⟩ := pop_step hp5
  have I5 : ∀ k2 ∈ ["multi_query_attention", "multi_query_group_num", "hidden_dropout", "attention_dropout", "max_position_embeddings", "initializer_range", "layernorm_epsilon", "rope_ratio", "rmsnorm", "apply_residual_connection_post_layernorm", "post_layer_norm", "use_cache", "kv_channels", "add_qkv_bias", "add_bias_linear"],
      dictLookup c5 k2 = dictLookup cfg k2 := fun k2 hm =>
    (dictPop_preserve h5 (fun he => absurd (he ▸ hm) (by decide))).trans
      (I4 k2 (List.mem_cons_of_mem _ hm))
  have hp6 : hasKey c5 "multi_query_attention" = true := by
    rw [hasKey, I5 _ (by decide)]
    exact hall _ (by decide)
  obtain ⟨v6, c6, h6, hl6⟩ := pop_step hp6
  have I6 : ∀ k2 ∈ ["multi_query_group_num", "hidden_dropout", "attention_dropout", "max_position_embeddings", "initializer_range", "layernorm_epsilon", "rope_ratio", "rmsnorm", "apply_residual_connection_post_layernorm", "post_layer_norm", "use_cache", "kv_channels", "add_qkv_bias", "add_bias_linear"],
      dictLookup c6 k2 = dictLookup cfg k2 := fun k2 hm =>
    (dictPop_preserve h6 (fun he => absurd (he ▸ hm) (by decide))).trans
      (I5 k2 (List.mem_cons_of_mem _ hm))
  have hmv : v6 = mv := by
    have hx : dictLookup cfg "multi_query_attention" = some v6 := by
      rw [← I5 _ (by decide)]
      exact hl6
    exact Option.some.inj (hx.symm.trans hmqa)
  subst hmv
  obtain ⟨vk, c7, hk7, hgfact, hnfact, I7⟩ :
      ∃ vk c7, (if pyTruthy v6 = true then dictPop c6 "multi_query_group_num"
          else some (v1, c6)) = some (vk, c7) ∧
        (pyTruthy v6 = true → dictLookup cfg "multi_query_group_num" = some vk) ∧
        (pyTruthy v6 = false → vk = v1) ∧
        ∀ k2 ∈ ["hidden_dropout", "attention_dropout", "max_position_embeddings", "initializer_range", "layernorm_epsilon", "rope_ratio", "rmsnorm", "apply_residual_connection_post_layernorm", "post_layer_norm", "use_cache", "kv_channels", "add_qkv_bias", "add_bias_linear"],
          dictLookup c7 k2 = dictLookup cfg k2 := by
    by_cases hb : pyTruthy v6 = true
    · have hkg : hasKey c6 "multi_query_group_num" = true := by
        rw [hasKey, I6 _ (by decide)]
        exact hgrp hb
      obtain ⟨vg, cg, hpg, hlg⟩ := pop_step hkg
      refine ⟨vg, cg, by rw [if_pos hb]; exact hpg, fun _ => ?_,
        fun hf => absurd hb (by simp [hf]), fun k2 hm => ?_⟩
      · rw [← I6 _ (by decide)]
        exact hlg
      · exact (dictPop_preserve hpg (fun he => absurd (he ▸ hm) (by decide))).trans
          (I6 k2 (List.mem_cons_of_mem _ hm))
    · exact ⟨v1, c6, by rw [if_neg hb], fun ht => absurd ht hb, fun _ => rfl,
        fun k2 hm => I6 k2 (List.mem_cons_of_mem _ hm)⟩
  have hp8 : hasKey c7 "hidden_dropout" = true := by
    rw [hasKey, I7 _ (by decide)]
    exact hall _ (by decide)
  obtain ⟨v8, c8, h8, hl8⟩ := pop_step hp8
  have I8 : ∀ k2 ∈ ["attention_dropout", "max_position_embeddings", "initializer_range", "layernorm_epsilon", "rope_ratio", "rmsnorm", "apply_residual_connection_post_layernorm", "post_layer_norm", "use_cache", "kv_channels", "add_qkv_bias", "add_bias_linear"],
      dictLookup c8 k2 = dictLookup cfg k2 := fun k2 hm =>
    (dictPop_preserve h8 (fun he => absurd (he ▸ hm) (by decide))).trans
      (I7 k2 (List.mem_cons_of_mem _ hm))
  have hp9 : hasKey c8 "attention_dropout" = true := by
    rw [hasKey, I8 _ (by decide)]
    exact hall _ (by decide)
  obtain ⟨v9, c9, h9, hl9⟩ := pop_step hp9
  have I9 : ∀ k2 ∈ ["max_position_embeddings", "initializer_range", "layernorm_epsilon", "rope_ratio", "rmsnorm", "apply_residual_connection_post_layernorm", "post_layer_norm", "use_cache", "kv_channels", "add_qkv_bias", "add_bias_linear"],
      dictLookup c9 k2 = dictLookup cfg k2 := fun k2 hm =>
    (dictPop_preserve h9 (fun he => absurd (he ▸ hm) (by decide))).trans
      (I8 k2 (List.mem_cons_of_mem _ hm))
  have hp10 : hasKey c9 "max_position_embeddings" = true := by
    rw [hasKey, I9 _ (by decide)]
    exact hall _ (by decide)
  obtain ⟨v10, c10, h10, hl10⟩ := pop_step hp10
  have I10 : ∀ k2 ∈ ["initializer_range", "layernorm_epsilon", "rope_ratio", "rmsnorm", "apply_residual_connection_post_layernorm", "post_layer_norm", "use_cache", "kv_channels", "add_qkv_bias", "add_bias_linear"],
      dictLookup c10 k2 = dictLookup cfg k2 := fun k2 hm =>
    (dictPop_preserve h10 (fun he => absurd (he ▸ hm) (by decide))).trans
      (I9 k2 (List.mem_cons_of_mem _ hm))
  have hp11 : hasKey c10 "initializer_range" = true := by
    rw [hasKey, I10 _ (by decide)]
    exact hall _ (by decide)
  obtain ⟨v11, c11, h11, hl11⟩ := pop_step hp11
  have I11 : ∀ k2 ∈ ["layernorm_epsilon", "rope_ratio", "rmsnorm", "apply_residual_connection_post_layernorm", "post_layer_norm", "use_cache", "kv_channels", "add_qkv_bias", "add_bias_linear"],
      dictLookup c11 k2 = dictLookup cfg k2 := fun k2 hm =>
    (dictPop_preserve h11 (fun he => absurd (he ▸ hm) (by decide))).trans
      (I10 k2 (List.mem_cons_of_mem _ hm))
  have hp12 : hasKey c11 "layernorm_epsilon" = true := by
    rw [hasKey, I11 _ (by decide)]
    exact hall _ (by decide)
  obtain ⟨v12, c12, h12, hl12⟩ := pop_step hp12
  have I12 : ∀ k2 ∈ ["rope_ratio", "rmsnorm", "apply_residual_connection_post_layernorm", "post_layer_norm", "use_cache", "kv_channels", "add_qkv_bias", "add_bias_linear"],
      dictLookup c12 k2 = dictLookup cfg k2 := fun k2 hm =>
    (dictPop_preserve h12 (fun he => absurd (he ▸ hm) (by decide))).trans
      (I11 k2 (List.mem_cons_of_mem _ hm))
  have hp13 : hasKey c12 "rope_ratio" = true := by
    rw [hasKey, I12 _ (by decide)]
    exact hall _ (by decide)
  obtain ⟨v13, c13, h13, hl13⟩ := pop_step hp13
  have I13 : ∀ k2 ∈ ["rmsnorm", "apply_residual_connection_post_layernorm", "post_layer_norm", "use_cache", "kv_channels", "add_qkv_bias", "add_bias_linear"],
      dictLookup c13 k2 = dictLookup cfg k2 := fun k2 hm =>
    (dictPop_preserve h13 (fun he => absurd (he ▸ hm) (by decide))).trans
      (I12 k2 (List.mem_cons_of_mem _ hm))
  have hp14 : hasKey c13 "rmsnorm" = true := by
    rw [hasKey, I13 _ (by decide)]
    exact hall _ (by decide)
  obtain ⟨v14, c14, h14, hl14⟩ := pop_step hp14
  have I14 : ∀ k2 ∈ ["apply_residual_connection_post_layernorm", "post_layer_norm", "use_cache", "kv_channels", "add_qkv_bias", "add_bias_linear"],
      dictLookup c14 k2 = dictLookup cfg k2 := fun k2 hm =>
    (dictPop_preserve h14 (fun he => absurd (he ▸ hm) (by decide))).trans
      (I13 k2 (List.mem_cons_of_mem _ hm))
  have hp15 : hasKey c14 "apply_residual_connection_post_layernorm" = true := by
    rw [hasKey, I14 _ (by decide)]
    exact hall _ (by decide)
  obtain ⟨v15, c15, h15, hl15⟩ := pop_step hp15
  have I15 : ∀ k2 ∈ ["post_layer_norm", "use_cache", "kv_channels", "add_qkv_bias", "add_bias_linear"],
      dictLookup c15 k2 = dictLookup cfg k2 := fun k2 hm =>
    (dictPop_preserve h15 (fun he => absurd (he ▸ hm) (by decide))).trans
      (I14 k2 (List.mem_cons_of_mem _ hm))
  have hp16 : hasKey c15 "post_layer_norm" = true := by
    rw [hasKey, I15 _ (by decide)]
    exact hall _ (by decide)
  obtain ⟨v16, c16, h16, hl16⟩ := pop_step hp16
  have I16 : ∀ k2 ∈ ["use_cache", "kv_channels", "add_qkv_bias", "add_bias_linear"],
      dictLookup c16 k2 = dictLookup cfg k2 := fun k2 hm =>
    (dictPop_preserve h16 (fun he => absurd (he ▸ hm) (by decide))).trans
      (I15 k2 (List.mem_cons_of_mem _ hm))
  have hp17 : hasKey c16 "use_cache" = true := by
    rw [hasKey, I16 _ (by decide)]
    exact hall _ (by decide)
  obtain ⟨v17, c17, h17, hl17⟩ := pop_step hp17
  have I17 : ∀ k2 ∈ ["kv_channels", "add_qkv_bias", "add_bias_linear"],
      dictLookup c17 k2 = dictLookup cfg k2 := fun k2 hm =>
    (dictPop_preserve h17 (fun he => absurd (he ▸ hm) (by decide))).trans
      (I16 k2 (List.mem_cons_of_mem _ hm))
  have hp18 : hasKey c17 "kv_channels" = true := by
    rw [hasKey, I17 _ (by decide)]
    exact hall _ (by decide)
  obtain ⟨v18, c18, h18, hl18⟩ := pop_step hp18
  have I18 : ∀ k2 ∈ ["add_qkv_bias", "add_bias_linear"],
      dictLookup c18 k2 = dictLookup cfg k2 := fun k2 hm =>
    (dictPop_preserve h18 (fun he => absurd (he ▸ hm) (by decide))).trans
      (I17 k2 (List.mem_cons_of_mem _ hm))
  have hp19 : hasKey c18 "add_qkv_bias" = true := by
    rw [hasKey, I18 _ (by decide)]
    exact hall _ (by decide)
  obtain ⟨v19, c19, h19, hl19⟩ := pop_step hp19
  have I19 : ∀ k2 ∈ ["add_bias_linear"],
      dictLookup c19 k2 = dictLookup cfg k2 := fun k2 hm =>
    (dictPop_preserve h19 (fun he => absurd (he ▸ hm) (by decide))).trans
      (I18 k2 (List.mem_cons_of_mem _ hm))
  have hp20 : hasKey c19 "add_bias_linear" = true := by
    rw [hasKey, I19 _ (by decide)]
    exact hall _ (by decide)
  obtain ⟨v20, c20, h20, hl20⟩ := pop_step hp20
  refine ⟨{ vocab_size := v2, hidden_size := v3, intermediate_size := v4,
            num_hidden_layers := v5, num_attention_heads := v1,
            num_key_value_heads := vk, resid_pdrop := v8, attention_dropout := v9,
            max_position_embeddings := v10, initializer_range := v11,
            rms_norm_eps := v12, rope_theta := mulFloat10000 v13,
            use_rms_norm := v14, apply_residual_connection_post_layernorm := v15,
            post_layer_norm := v16, use_cache := v17, head_dim := v18,
            attention_bias := v19, linear_bias := v20 }, c20, ?_, ?_, ?_, ?_⟩
  · simp only [convert_config, h1, h2, h3, h4, h5, h6, hk7, h8, h9, h10, h11, h12, h13, h14, h15, h16, h17, h18, h19, h20]
  · intro g hb hg
    exact (Option.some.inj (hg.symm.trans (hgfact hb))).symm
  · intro n hf hn
    have hv : vk = v1 := hnfact hf
    have hn2 : n = v1 := Option.some.inj (hn.symm.trans hl1)
    show vk = n
    rw [hv, hn2]
  · intro r hr
    have hx : dictLookup cfg "rope_ratio" = some v13 := by
      rw [← I12 _ (by decide)]
      exact hl13
    have hrv : r = v13 := Option.some.inj (hr.symm.trans hx)
    show mulFloat10000 v13 = mulFloat10000 r
    rw [hrv]

theorem convert_config_requires (cfg : List (String × ConfigVal)) (t : GlmConfigT)
    (rest : List (String × ConfigVal)) (h : convert_config cfg = some (t, rest)) :
    (∀ k ∈ requiredConfigKeys, hasKey cfg k = true) ∧
    (∀ mvv, dictLookup cfg "multi_query_attention" = some mvv → pyTruthy mvv = true →
      hasKey cfg "multi_query_group_num" = true) := by
  unfold convert_config at h
  cases h1 : dictPop cfg "num_attention_heads" with
  | none => simp [h1] at h
  | some p1 =>
  simp only [h1] at h
  have I1 : ∀ k2 ∈ ["padded_vocab_size", "hidden_size", "ffn_hidden_size", "num_hidden_layer", "multi_query_attention", "multi_query_group_num", "hidden_dropout", "attention_dropout", "max_position_embeddings", "initializer_range", "layernorm_epsilon", "rope_ratio", "rmsnorm", "apply_residual_connection_post_layernorm", "post_layer_norm", "use_cache", "kv_channels", "add_qkv_bias", "add_bias_linear"],
      dictLookup p1.2 k2 = dictLookup cfg k2 := fun k2 hm =>
    dictPop_preserve (show dictPop cfg "num_attention_heads" = some (p1.1, p1.2) from h1)
      (fun he => absurd (he ▸ hm) (by decide))
  cases h2 : dictPop p1.2 "padded_vocab_size" with
  | none => simp [h2] at h
  | some p2 =>
  simp only [h2] at h
  have I2 : ∀ k2 ∈ ["hidden_size", "ffn_hidden_size", "num_hidden_layer", "multi_query_attention", "multi_query_group_num", "hidden_dropout", "attention_dropout", "max_position_embeddings", "initializer_range", "layernorm_epsilon", "rope_ratio", "rmsnorm", "apply_residual_connection_post_layernorm", "post_layer_norm", "use_cache", "kv_channels", "add_qkv_bias", "add_bias_linear"],
      dictLookup p2.2 k2 = dictLookup cfg k2 := fun k2 hm =>
    (dictPop_preserve (show dictPop p1.2 "padded_vocab_size" = some (p2.1, p2.2) from h2)
      (fun he => absurd (he ▸ hm) (by decide))).trans
      (I1 k2 (List.mem_cons_of_mem _ hm))
  cases h3 : dictPop p2.2 "hidden_size" with
  | none => simp [h3] at h
  | some p3 =>
  simp only [h3] at h
  have I3 : ∀ k2 ∈ ["ffn_hidden_size", "num_hidden_layer", "multi_query_attention", "multi_query_group_num", "hidden_dropout", "attention_dropout", "max_position_embeddings", "initializer_range", "layernorm_epsilon", "rope_ratio", "rmsnorm", "apply_residual_connection_post_layernorm", "post_layer_norm", "use_cache", "kv_channels", "add_qkv_bias", "add_bias_linear"],
      dictLookup p3.2 k2 = dictLookup cfg k2 := fun k2 hm =>
    (dictPop_preserve (show dictPop p2.2 "hidden_size" = some (p3.1, p3.2) from h3)
      (fun he => absurd (he ▸ hm) (by decide))).trans
      (I2 k2 (List.mem_cons_of_mem _ hm))
  cases h4 : dictPop p3.2 "ffn_hidden_size" with
  | none => simp [h4] at h
  | some p4 =>
  simp only [h4] at h
  have I4 : ∀ k2 ∈ ["num_hidden_layer", "multi_query_attention", "multi_query_group_num", "hidden_dropout", "attention_dropout", "max_position_embeddings", "initializer_range", "layernorm_epsilon", "rope_ratio", "rmsnorm", "apply_residual_connection_post_layernorm", "post_layer_norm", "use_cache", "kv_channels", "add_qkv_bias", "add_bias_linear"],
      dictLookup p4.2 k2 = dictLookup cfg k2 := fun k2 hm =>
    (dictPop_preserve (show dictPop p3.2 "ffn_hidden_size" = some (p4.1, p4.2) from h4)
      (fun he => absurd (he ▸ hm) (by decide))).trans
      (I3 k2 (List.mem_cons_of_mem _ hm))
  cases h5 : dictPop p4.2 "num_hidden_layer" with
  | none => simp [h5] at h
  | some p5 =>
  simp only [h5] at h
  have I5 : ∀ k2 ∈ ["multi_query_attention", "multi_query_group_num", "hidden_dropout", "attention_dropout", "max_position_embeddings", "initializer_range", "layernorm_epsilon", "rope_ratio", "rmsnorm", "apply_residual_connection_post_layernorm", "post_layer_norm", "use_cache", "kv_channels", "add_qkv_bias", "add_bias_linear"],
      dictLookup p5.2 k2 = dictLookup cfg k2 := fun k2 hm =>
    (dictPop_preserve (show dictPop p4.2 "num_hidden_layer" = some (p5.1, p5.2) from h5)
      (fun he => absurd (he ▸ hm) (by decide))).trans
      (I4 k2 (List.mem_cons_of_mem _ hm))
  cases h6 : dictPop p5.2 "multi_query_attention" with
  | none => simp [h6] at h
  | some p6 =>
  simp only [h6] at h
  have I6 : ∀ k2 ∈ ["multi_query_group_num", "hidden_dropout", "attention_dropout", "max_position_embeddings", "initializer_range", "layernorm_epsilon", "rope_ratio", "rmsnorm", "apply_residual_connection_post_layernorm", "post_layer_norm", "use_cache", "kv_channels", "add_qkv_bias", "add_bias_linear"],
      dictLookup p6.2 k2 = dictLookup cfg k2 := fun k2 hm =>
    (dictPop_preserve (show dictPop p5.2 "multi_query_attention" = some (p6.1, p6.2) from h6)
      (fun he => absurd (he ▸ hm) (by decide))).trans
      (I5 k2 (List.mem_cons_of_mem _ hm))
  obtain ⟨pk, hk7, hgp, I7⟩ :
      ∃ pk : ConfigVal × List (String × ConfigVal),
        (if pyTruthy p6.1 = true then dictPop p6.2 "multi_query_group_num"
          else some (p1.1, p6.2)) = some pk ∧
        (pyTruthy p6.1 = true → hasKey cfg "multi_query_group_num" = true) ∧
        ∀ k2 ∈ ["hidden_dropout", "attention_dropout", "max_position_embeddings", "initializer_range", "layernorm_epsilon", "rope_ratio", "rmsnorm", "apply_residual_connection_post_layernorm", "post_layer_norm", "use_cache", "kv_channels", "add_qkv_bias", "add_bias_linear"],
          dictLookup pk.2 k2 = dictLookup cfg k2 := by
    by_cases hb : pyTruthy p6.1 = true
    · rw [if_pos hb] at h ⊢
      cases h7 : dictPop p6.2 "multi_query_group_num" with
      | none => simp [h7] at h
      | some p7 =>
        refine ⟨p7, rfl, fun _ => ?_, fun k2 hm => ?_⟩
        · rw [hasKey, ← I6 _ (by decide),
            dictPop_some_lookup (show dictPop p6.2 "multi_query_group_num"
              = some (p7.1, p7.2) from h7)]
          rfl
        · exact (dictPop_preserve (show dictPop p6.2 "multi_query_group_num"
              = some (p7.1, p7.2) from h7)
            (fun he => absurd (he ▸ hm) (by decide))).trans
            (I6 k2 (List.mem_cons_of_mem _ hm))
    · rw [if_neg hb] at h ⊢
      exact ⟨(p1.1, p6.2), rfl, fun ht => absurd ht hb,
        fun k2 hm => I6 k2 (List.mem_cons_of_mem _ hm)⟩
  simp only [hk7] at h
  cases h8 : dictPop pk.2 "hidden_dropout" with
  | none => simp [h8] at h
  | some p8 =>
  simp only [h8] at h
  have I8 : ∀ k2 ∈ ["attention_dropout", "max_position_embeddings", "initializer_range", "layernorm_epsilon", "rope_ratio", "rmsnorm", "apply_residual_connection_post_layernorm", "post_layer_norm", "use_cache", "kv_channels", "add_qkv_bias", "add_bias_linear"],
      dictLookup p8.2 k2 = dictLookup cfg k2 := fun k2 hm =>
    (dictPop_preserve (show dictPop pk.2 "hidden_dropout" = some (p8.1, p8.2) from h8)
      (fun he => absurd (he ▸ hm) (by decide))).trans
      (I7 k2 (List.mem_cons_of_mem _ hm))
  cases h9 : dictPop p8.2 "attention_dropout" with
  | none => simp [h9] at h
  | some p9 =>
  simp only [h9] at h
  have I9 : ∀ k2 ∈ ["max_position_embeddings", "initializer_range", "layernorm_epsilon", "rope_ratio", "rmsnorm", "apply_residual_connection_post_layernorm", "post_layer_norm", "use_cache", "kv_channels", "add_qkv_bias", "add_bias_linear"],
      dictLookup p9.2 k2 = dictLookup cfg k2 := fun k2 hm =>
    (dictPop_preserve (show dictPop p8.2 "attention_dropout" = some (p9.1, p9.2) from h9)
      (fun he => absurd (he ▸ hm) (by decide))).trans
      (I8 k2 (List.mem_cons_of_mem _ hm))
  cases h10 : dictPop p9.2 "max_position_embeddings" with
  | none => simp [h10] at h
  | some p10 =>
  simp only [h10] at h
  have I10 : ∀ k2 ∈ ["initializer_range", "layernorm_epsilon", "rope_ratio", "rmsnorm", "apply_residual_connection_post_layernorm", "post_layer_norm", "use_cache", "kv_channels", "add_qkv_bias", "add_bias_linear"],
      dictLookup p10.2 k2 = dictLookup cfg k2 := fun k2 hm =>
    (dictPop_preserve (show dictPop p9.2 "max_position_embeddings" = some (p10.1, p10.2) from h10)
      (fun he => absurd (he ▸ hm) (by decide))).trans
      (I9 k2 (List.mem_cons_of_mem _ hm))
  cases h11 : dictPop p10.2 "initializer_range" with
  | none => simp [h11] at h
  | some p11 =>
  simp only [h11] at h
  have I11 : ∀ k2 ∈ ["layernorm_epsilon", "rope_ratio", "rmsnorm", "apply_residual_connection_post_layernorm", "post_layer_norm", "use_cache", "kv_channels", "add_qkv_bias", "add_bias_linear"],
      dictLookup p11.2 k2 = dictLookup cfg k2 := fun k2 hm =>
    (dictPop_preserve (show dictPop p10.2 "initializer_range" = some (p11.1, p11.2) from h11)
      (fun he => absurd (he ▸ hm) (by decide))).trans
      (I10 k2 (List.mem_cons_of_mem _ hm))
  cases h12 : dictPop p11.2 "layernorm_epsilon" with
  | none => simp [h12] at h
  | some p12 =>
  simp only [h12] at h
  have I12 : ∀ k2 ∈ ["rope_ratio", "rmsnorm", "apply_residual_connection_post_layernorm", "post_layer_norm", "use_cache", "kv_channels", "add_qkv_bias", "add_bias_linear"],
      dictLookup p12.2 k2 = dictLookup cfg k2 := fun k2 hm =>
    (dictPop_preserve (show dictPop p11.2 "layernorm_epsilon" = some (p12.1, p12.2) from h12)
      (fun he => absurd (he ▸ hm) (by decide))).trans
      (I11 k2 (List.mem_cons_of_mem _ hm))
  cases h13 : dictPop p12.2 "rope_ratio" with
  | none => simp [h13] at h
  | some p13 =>
  simp only [h13] at h
  have I13 : ∀ k2 ∈ ["rmsnorm", "apply_residual_connection_post_layernorm", "post_layer_norm", "use_cache", "kv_channels", "add_qkv_bias", "add_bias_linear"],
      dictLookup p13.2 k2 = dictLookup cfg k2 := fun k2 hm =>
    (dictPop_preserve (show dictPop p12.2 "rope_ratio" = some (p13.1, p13.2) from h13)
      (fun he => absurd (he ▸ hm) (by decide))).trans
      (I12 k2 (List.mem_cons_of_mem _ hm))
  cases h14 : dictPop p13.2 "rmsnorm" with
  | none => simp [h14] at h
  | some p14 =>
  simp only [h14] at h
  have I14 : ∀ k2 ∈ ["apply_residual_connection_post_layernorm", "post_layer_norm", "use_cache", "kv_channels", "add_qkv_bias", "add_bias_linear"],
      dictLookup p14.2 k2 = dictLookup cfg k2 := fun k2 hm =>
    (dictPop_preserve (show dictPop p13.2 "rmsnorm" = some (p14.1, p14.2) from h14)
      (fun he => absurd (he ▸ hm) (by decide))).trans
      (I13 k2 (List.mem_cons_of_mem _ hm))
  cases h15 : dictPop p14.2 "apply_residual_connection_post_layernorm" with
  | none => simp [h15] at h
  | some p15 =>
  simp only [h15] at h
  have I15 : ∀ k2 ∈ ["post_layer_norm", "use_cache", "kv_channels", "add_qkv_bias", "add_bias_linear"],
      dictLookup p15.2 k2 = dictLookup cfg k2 := fun k2 hm =>
    (dictPop_preserve (show dictPop p14.2 "apply_residual_connection_post_layernorm" = some (p15.1, p15.2) from h15)
      (fun he => absurd (he ▸ hm) (by decide))).trans
      (I14 k2 (List.mem_cons_of_mem _ hm))
  cases h16 : dictPop p15.2 "post_layer_norm" with
  | none => simp [h16] at h
  | some p16 =>
  simp only [h16] at h
  have I16 : ∀ k2 ∈ ["use_cache", "kv_channels", "add_qkv_bias", "add_bias_linear"],
      dictLookup p16.2 k2 = dictLookup cfg k2 := fun k2 hm =>
    (dictPop_preserve (show dictPop p15.2 "post_layer_norm" = some (p16.1, p16.2) from h16)
      (fun he => absurd (he ▸ hm) (by decide))).trans
      (I15 k2 (List.mem_cons_of_mem _ hm))
  cases h17 : dictPop p16.2 "use_cache" with
  | none => simp [h17] at h
  | some p17 =>
  simp only [h17] at h
  have I17 : ∀ k2 ∈ ["kv_channels", "add_qkv_bias", "add_bias_linear"],
      dictLookup p17.2 k2 = dictLookup cfg k2 := fun k2 hm =>
    (dictPop_preserve (show dictPop p16.2 "use_cache" = some (p17.1, p17.2) from h17)
      (fun he => absurd (he ▸ hm) (by decide))).trans
      (I16 k2 (List.mem_cons_of_mem _ hm))
  cases h18 : dictPop p17.2 "kv_channels" with
  | none => simp [h18] at h
  | some p18 =>
  simp only [h18] at h
  have I18 : ∀ k2 ∈ ["add_qkv_bias", "add_bias_linear"],
      dictLookup p18.2 k2 = dictLookup cfg k2 := fun k2 hm =>
    (dictPop_preserve (show dictPop p17.2 "kv_channels" = some (p18.1, p18.2) from h18)
      (fun he => absurd (he ▸ hm) (by decide))).trans
      (I17 k2 (List.mem_cons_of_mem _ hm))
  cases h19 : dictPop p18.2 "add_qkv_bias" with
  | none => simp [h19] at h
  | some p19 =>
  simp only [h19] at h
  have I19 : ∀ k2 ∈ ["add_bias_linear"],
      dictLookup p19.2 k2 = dictLookup cfg k2 := fun k2 hm =>
    (dictPop_preserve (show dictPop p18.2 "add_qkv_bias" = some (p19.1, p19.2) from h19)
      (fun he => absurd (he ▸ hm) (by decide))).trans
      (I18 k2 (List.mem_cons_of_mem _ hm))
  cases h20 : dictPop p19.2 "add_bias_linear" with
  | none => simp [h20] at h
  | some p20 =>
  simp only [h20] at h
  constructor
  · intro k hk
    simp only [requiredConfigKeys, List.mem_cons, List.not_mem_nil, or_false] at hk
    rcases hk with rfl | rfl | rfl | rfl | rfl | rfl | rfl | rfl | rfl | rfl | rfl | rfl | rfl | rfl | rfl | rfl | rfl | rfl | rfl
    · rw [hasKey, dictPop_some_lookup (show dictPop cfg "num_attention_heads"
        = some (p1.1, p1.2) from h1)]
      rfl
    · rw [hasKey, ← I1 _ (by decide), dictPop_some_lookup
        (show dictPop p1.2 "padded_vocab_size" = some (p2.1, p2.2) from h2)]
      rfl
    · rw [hasKey, ← I2 _ (by decide), dictPop_some_lookup
        (show dictPop p2.2 "hidden_size" = some (p3.1, p3.2) from h3)]
      rfl
    · rw [hasKey, ← I3 _ (by decide), dictPop_some_lookup
        (show dictPop p3.2 "ffn_hidden_size" = some (p4.1, p4.2) from h4)]
      rfl
    · rw [hasKey, ← I4 _ (by decide), dictPop_some_lookup
        (show dictPop p4.2 "num_hidden_layer" = some (p5.1, p5.2) from h5)]
      rfl
    · rw [hasKey, ← I5 _ (by decide), dictPop_some_lookup
        (show dictPop p5.2 "multi_query_attention" = some (p6.1, p6.2) from h6)]
      rfl
    · rw [hasKey, ← I7 _ (by decide), dictPop_some_lookup
        (show dictPop pk.2 "hidden_dropout" = some (p8.1, p8.2) from h8)]
      rfl
    · rw [hasKey, ← I8 _ (by decide), dictPop_some_lookup
        (show dictPop p8.2 "attention_dropout" = some (p9.1, p9.2) from h9)]
      rfl
    · rw [hasKey, ← I9 _ (by decide), dictPop_some_lookup
        (show dictPop p9.2 "max_position_embeddings" = some (p10.1, p10.2) from h10)]
      rfl
    · rw [hasKey, ← I10 _ (by decide), dictPop_some_lookup
        (show dictPop p10.2 "initializer_range" = some (p11.1, p11.2) from h11)]
      rfl
    · rw [hasKey, ← I11 _ (by decide), dictPop_some_lookup
        (show dictPop p11.2 "layernorm_epsilon" = some (p12.1, p12.2) from h12)]
      rfl
    · rw [hasKey, ← I12 _ (by decide), dictPop_some_lookup
        (show dictPop p12.2 "rope_ratio" = some (p13.1, p13.2) from h13)]
      rfl
    · rw [hasKey, ← I13 _ (by decide), dictPop_some_lookup
        (show dictPop p13.2 "rmsnorm" = some (p14.1, p14.2) from h14)]
      rfl
    · rw [hasKey, ← I14 _ (by decide), dictPop_some_lookup
        (show dictPop p14.2 "apply_residual_connection_post_layernorm" = some (p15.1, p15.2) from h15)]
      rfl
    · rw [hasKey, ← I15 _ (by decide), dictPop_some_lookup
        (show dictPop p15.2 "post_layer_norm" = some (p16.1, p16.2) from h16)]
      rfl
    · rw [hasKey, ← I16 _ (by decide), dictPop_some_lookup
        (show dictPop p16.2 "use_cache" = some (p17.1, p17.2) from h17)]
      rfl
    · rw [hasKey, ← I17 _ (by decide), dictPop_some_lookup
        (show dictPop p17.2 "kv_channels" = some (p18.1, p18.2) from h18)]
      rfl
    · rw [hasKey, ← I18 _ (by decide), dictPop_some_lookup
        (show dictPop p18.2 "add_qkv_bias" = some (p19.1, p19.2) from h19)]
      rfl
    · rw [hasKey, ← I19 _ (by decide), dictPop_some_lookup
        (show dictPop p19.2 "add_bias_linear" = some (p20.1, p20.2) from h20)]
      rfl
  · intro mvv hmv ht
    have hx : dictLookup cfg "multi_query_attention" = some p6.1 := by
      rw [← I5 _ (by decide)]
      exact dictPop_some_lookup (show dictPop p5.2 "multi_query_attention"
        = some (p6.1, p6.2) from h6)
    have : mvv = p6.1 := Option.some.inj (hmv.symm.trans hx)
    exact hgp (this ▸ ht)

theorem convert_config_none_of_missing (cfg : List (String × ConfigVal)) (k : String)
    (hk : k ∈ requiredConfigKeys) (habs : hasKey cfg k = false) :
    convert_config cfg = none := by
  cases hcc : convert_config cfg with
  | none => rfl
  | some p =>
    have hreq := (convert_config_requires cfg p.1 p.2 (by rw [hcc])).1
    rw [hreq k hk] at habs
    exact absurd habs (by simp)

/-! State-dict frame lemmas. -/

theorem dictInsert_append {V : Type} (d : List (List Char × V)) (k : List Char) (v : V)
    (h : ∀ kv ∈ d, kv.1 ≠ k) : dictInsert d k v = d ++ [(k, v)] := by
  unfold dictInsert
  rw [if_neg]
  intro hc
  simp only [List.any_eq_true, beq_iff_eq] at hc
  obtain ⟨kv, hkv, he⟩ := hc
  exact h kv hkv he

theorem foldl_dictInsert_fresh {V : Type} (f : List Char → List Char)
    (sd : List (List Char × V)) :
    ∀ acc : List (List Char × V),
      (sd.map (fun kv => f kv.1)).Nodup →
      (∀ kv ∈ sd, ∀ av ∈ acc, av.1 ≠ f kv.1) →
      sd.foldl (fun nd kv => dictInsert nd (f kv.1) kv.2) acc
        = acc ++ sd.map (fun kv => (f kv.1, kv.2)) := by
  induction sd with
  | nil => intro acc _ _; simp
  | cons kv rest ih =>
    intro acc hnd hfresh
    simp only [List.foldl_cons, List.map_cons]
    rw [dictInsert_append acc (f kv.1) kv.2
      (fun av hav => hfresh kv (List.mem_cons_self _ _) av hav)]
    rw [ih (acc ++ [(f kv.1, kv.2)]) (List.Nodup.of_cons hnd) ?_]
    · simp
    · intro kv2 hkv2 av hav
      rcases List.mem_append.1 hav with hin | hin
      · exact hfresh kv2 (List.mem_cons_of_mem _ hkv2) av hin
      · have hav2 : av = (f kv.1, kv.2) := by simpa using hin
        subst hav2
        have hmem : f kv2.1 ∈ rest.map (fun kv => f kv.1) :=
          List.mem_map_of_mem _ hkv2
        have hne := (List.nodup_cons.1 hnd).1
        intro heq
        have heq2 : f kv.1 = f kv2.1 := heq
        rw [← heq2] at hmem
        exact hne hmem

theorem convert_state_dict_eq_map {V : Type} (sd : List (List Char × V))
    (hinj : (sd.map (fun kv => convertKey kv.1)).Nodup) :
    convert_state_dict sd = sd.map (fun kv => (convertKey kv.1, kv.2)) := by
  unfold convert_state_dict
  simpa using foldl_dictInsert_fresh convertKey sd [] hinj (by simp)

/-! Shard-merge lemmas. -/

theorem splitOnce_append (sep : Char) (d m : List Char) (hd : sep ∉ d) :
    splitOnce sep (d ++ m) = (splitOnce sep m).map (fun p => (d ++ p.1, p.2)) := by
  induction d with
  | nil =>
    simp only [List.nil_append]
    cases splitOnce sep m <;> simp
  | cons c d2 ih =>
    have hd2 : sep ∉ d2 := fun hm2 => hd (List.mem_cons_of_mem _ hm2)
    have hc : ¬ c = sep := fun he => hd (List.mem_cons.2 (Or.inl he.symm))
    rw [List.cons_append]
    cases h : splitOnce sep m with
    | none => simp [splitOnce, if_neg hc, ih hd2, h]
    | some p => simp [splitOnce, if_neg hc, ih hd2, h]

theorem pySplit_two (s : List Char) :
    pySplit '-' 2 s
      = match splitOnce '-' s with
        | none => [s]
        | some (a, rest) => a :: pySplit '-' 1 rest := rfl

theorem ordKey_append (d m : List Char) (hd : '-' ∉ d) : ordKey (d ++ m) = ordKey m := by
  unfold ordKey
  rw [pySplit_two (d ++ m), pySplit_two m, splitOnce_append '-' d m hd]
  cases h : splitOnce '-' m with
  | none => simp
  | some p =>
    obtain ⟨a, r⟩ := p
    simp

theorem ordKey_pathJoin (dir name : List Char) (hd : '-' ∉ dir) :
    ordKey (pathJoin dir name) = ordKey name := by
  unfold pathJoin
  by_cases h1 : isPrefixB ['/'] name = true
  · rw [if_pos h1]
  · rw [if_neg h1]
    by_cases h2 : dir = []
    · rw [if_pos h2]
    · rw [if_neg h2]
      by_cases h3 : dir.getLast? = some '/'
      · rw [if_pos h3]
        exact ordKey_append dir name hd
      · rw [if_neg h3]
        rw [show dir ++ '/' :: name = (dir ++ ['/']) ++ name by simp]
        refine ordKey_append _ _ ?_
        intro hm
        rcases List.mem_append.1 hm with hm | hm
        · exact hd hm
        · simp at hm

theorem keyFiles_none {l : List (List Char × List Nat)} (fc : List Char × List Nat)
    (hfc : fc ∈ l) (h : ordKey fc.1 = none) : keyFiles l = none := by
  induction l with
  | nil => simp at hfc
  | cons g rest ih =>
    rcases List.mem_cons.1 hfc with rfl | hm
    · simp [keyFiles, h]
    · cases hg : ordKey g.1 <;> simp [keyFiles, hg, ih hm]

theorem keyFiles_eq {l : List (List Char × List Nat)}
    (h : ∀ fc ∈ l, (ordKey fc.1).isSome = true) :
    keyFiles l = some (l.map (fun fc => (((ordKey fc.1).getD 0 : Int), fc.1, fc.2))) := by
  induction l with
  | nil => rfl
  | cons g rest ih =>
    obtain ⟨k, hk⟩ := Option.isSome_iff_exists.1 (h g (List.mem_cons_self _ _))
    simp [keyFiles, hk, ih (fun fc hm => h fc (List.mem_cons_of_mem _ hm))]

theorem insertByKey_perm (x : Int × List Char × List Nat)
    (l : List (Int × List Char × List Nat)) : List.Perm (insertByKey x l) (x :: l) := by
  induction l with
  | nil => exact List.Perm.refl _
  | cons y ys ih =>
    unfold insertByKey
    by_cases h : y.1 ≤ x.1
    · rw [if_pos h]
      exact (ih.cons y).trans (List.Perm.swap x y ys)
    · rw [if_neg h]

theorem sortByKey_perm (l : List (Int × List Char × List Nat)) :
    List.Perm (sortByKey l) l := by
  suffices h : ∀ acc, List.Perm
      (List.foldl (fun acc x => insertByKey x acc) acc l) (acc ++ l) by
    simpa [sortByKey] using h []
  induction l with
  | nil => intro acc; simp
  | cons x xs ih =>
    intro acc
    simp only [List.foldl_cons]
    exact (ih (insertByKey x acc)).trans
      (((insertByKey_perm x acc).append_right xs).trans List.perm_middle.symm)

theorem insertByKey_sorted (x : Int × List Char × List Nat)
    (l : List (Int × List Char × List Nat))
    (hl : l.Pairwise (fun a b => a.1 ≤ b.1)) :
    (insertByKey x l).Pairwise (fun a b => a.1 ≤ b.1) := by
  induction l with
  | nil => simp [insertByKey]
  | cons y ys ih =>
    rcases List.pairwise_cons.1 hl with ⟨hy, hys⟩
    unfold insertByKey
    by_cases h : y.1 ≤ x.1
    · rw [if_pos h]
      refine List.pairwise_cons.2 ⟨?_, ih hys⟩
      intro z hz
      rcases List.mem_cons.1 ((insertByKey_perm x ys).mem_iff.1 hz) with rfl | hzy
      · exact h
      · exact hy z hzy
    · rw [if_neg h]
      refine List.pairwise_cons.2 ⟨?_, hl⟩
      intro z hz
      rcases List.mem_cons.1 hz with rfl | hzy
      · exact le_of_not_le h
      · exact le_trans (le_of_not_le h) (hy z hzy)

theorem sortByKey_sorted (l : List (Int × List Char × List Nat)) :
    (sortByKey l).Pairwise (fun a b => a.1 ≤ b.1) := by
  suffices h : ∀ acc, acc.Pairwise (fun a b => a.1 ≤ b.1) →
      (List.foldl (fun acc x => insertByKey x acc) acc l).Pairwise
        (fun a b => a.1 ≤ b.1) by
    exact h [] (by simp)
  induction l with
  | nil => intro acc hacc; simpa using hacc
  | cons x xs ih =>
    intro acc hacc
    simp only [List.foldl_cons]
    exact ih _ (insertByKey_sorted x acc hacc)

theorem sorted_unique_by_key (p q : List (Int × List Char × List Nat))
    (hperm : List.Perm p q)
    (hp : p.Pairwise (fun a b => a.1 ≤ b.1)) (hq : q.Pairwise (fun a b => a.1 ≤ b.1))
    (hnd : (p.map (fun x => x.1)).Nodup) : p = q := by
  haveI : IsAntisymm (Int × List Char × List Nat)
      (fun a b => a.1 < b.1 ∨ a = b) := ⟨by
    rintro a b (h1 | rfl) (h2 | h2)
    · exact absurd h1 (not_lt.2 (le_of_lt h2))
    · exact h2.symm
    · rfl
    · rfl⟩
  have hndq : (q.map (fun x => x.1)).Nodup := (hperm.map (fun x => x.1)).nodup_iff.1 hnd
  refine List.eq_of_perm_of_sorted (r := fun a b => a.1 < b.1 ∨ a = b) hperm ?_ ?_
  · exact ((List.pairwise_map.1 hnd).and hp).imp
      (fun h => Or.inl (lt_of_le_of_ne h.2 h.1))
  · exact ((List.pairwise_map.1 hndq).and hq).imp
      (fun h => Or.inl (lt_of_le_of_ne h.2 h.1))

theorem merge_safetensors_eq (dir : List Char) (listing s : List (List Char × List Nat))
    (hdir : '-' ∉ dir)
    (hkeys : ∀ fc ∈ listing.filter (fun fc => endsWithB fc.1 safetensorsSuffix),
      (ordKey fc.1).isSome = true)
    (hnodup : ((listing.filter (fun fc => endsWithB fc.1 safetensorsSuffix)).map
      (fun fc => ordKey fc.1)).Nodup)
    (hperm : List.Perm s (listing.filter (fun fc => endsWithB fc.1 safetensorsSuffix)))
    (hsorted : s.Pairwise (fun a b => (ordKey a.1).getD 0 ≤ (ordKey b.1).getD 0)) :
    merge_safetensors dir listing = some (s.flatMap (fun fc => fc.2)) := by
  have hjoin : ∀ fc : List Char × List Nat, ordKey (pathJoin dir fc.1) = ordKey fc.1 :=
    fun fc => ordKey_pathJoin dir fc.1 hdir
  have hkeys2 : ∀ gc ∈ (listing.filter
      (fun fc => endsWithB fc.1 safetensorsSuffix)).map
        (fun fc => (pathJoin dir fc.1, fc.2)), (ordKey gc.1).isSome = true := by
    intro gc hgc
    obtain ⟨fc, hfc, rfl⟩ := List.mem_map.1 hgc
    simpa [hjoin] using hkeys fc hfc
  have hks : ((listing.filter (fun fc => endsWithB fc.1 safetensorsSuffix)).map
        (fun fc => (pathJoin dir fc.1, fc.2))).map
          (fun gc => (((ordKey gc.1).getD 0 : Int), gc.1, gc.2))
      = (listing.filter (fun fc => endsWithB fc.1 safetensorsSuffix)).map
          (fun fc => (((ordKey fc.1).getD 0 : Int), pathJoin dir fc.1, fc.2)) := by
    rw [List.map_map]
    refine List.map_congr_left ?_
    intro fc _
    simp [hjoin fc]
  have hkeyF : (((listing.filter (fun fc => endsWithB fc.1 safetensorsSuffix)).map
      (fun fc => (((ordKey fc.1).getD 0 : Int), pathJoin dir fc.1, fc.2))).map
        (fun x => x.1)).Nodup := by
    rw [List.map_map]
    have h1 : ((listing.filter (fun fc => endsWithB fc.1 safetensorsSuffix)).map
          (fun fc => ordKey fc.1)).map (fun o => o.getD 0)
        = (listing.filter (fun fc => endsWithB fc.1 safetensorsSuffix)).map
          ((fun x : Int × List Char × List Nat => x.1) ∘
            (fun fc => (((ordKey fc.1).getD 0 : Int), pathJoin dir fc.1, fc.2))) := by
      rw [List.map_map]
      rfl
    rw [← h1]
    refine List.Nodup.map_on ?_ hnodup
    intro x hx y hy hxy
    obtain ⟨fx, hfx, rfl⟩ := List.mem_map.1 hx
    obtain ⟨fy, hfy, rfl⟩ := List.mem_map.1 hy
    obtain ⟨a, ha⟩ := Option.isSome_iff_exists.1 (hkeys fx hfx)
    obtain ⟨b, hb⟩ := Option.isSome_iff_exists.1 (hkeys fy hfy)
    rw [ha, hb] at hxy ⊢
    simpa using hxy
  have hsortedq : (s.map (fun fc =>
        (((ordKey fc.1).getD 0 : Int), pathJoin dir fc.1, fc.2))).Pairwise
      (fun a b => a.1 ≤ b.1) :=
    List.pairwise_map.2 (hsorted.imp (fun h => h))
  have hsort_eq : sortByKey ((listing.filter
        (fun fc => endsWithB fc.1 safetensorsSuffix)).map
          (fun fc => (((ordKey fc.1).getD 0 : Int), pathJoin dir fc.1, fc.2)))
      = s.map (fun fc => (((ordKey fc.1).getD 0 : Int), pathJoin dir fc.1, fc.2)) := by
    refine sorted_unique_by_key _ _ ?_ (sortByKey_sorted _) hsortedq ?_
    · exact (sortByKey_perm _).trans
        ((hperm.map (fun fc => (((ordKey fc.1).getD 0 : Int), pathJoin dir fc.1, fc.2))).symm)
    · exact ((sortByKey_perm _).map (fun x => x.1)).nodup_iff.2 hkeyF
  have hflat : ∀ u : List (List Char × List Nat),
      (u.map (fun fc => (((ordKey fc.1).getD 0 : Int), pathJoin dir fc.1, fc.2))).flatMap
        (fun kfc => kfc.2.2) = u.flatMap (fun fc => fc.2) := by
    intro u
    induction u with
    | nil => rfl
    | cons a t ih => simp only [List.map_cons, List.flatMap_cons, ih]
  simp only [merge_safetensors]
  simp only [keyFiles_eq hkeys2, hks, hsort_eq, hflat]

/-! Claim theorems. -/

/-- C1: the source key `transformer.encoder.layers.3.self_attention.query_key_value.weight`
is renamed by the ordered `STATE_DICT_MAPPING` substring replacements of
`convert_state_dict` to exactly `model.layers.3.self_attn.qkv_proj.weight`. -/
theorem claim_C1 :
    convertKey "transformer.encoder.layers.3.self_attention.query_key_value.weight".toList
      = "model.layers.3.self_attn.qkv_proj.weight".toList := by decide

/-- C2: the rule list violates the stated ordering discipline. The shorter
old-substring `transformer.` (index 0) is a proper prefix of the later
`transformer.output_layer.` (index 1), so the list is not clash-ordered, and
on the failing input `transformer.output_layer.weight` the renamer produces
`model.output_layer.weight` — the `lm_head.` rule can never fire. -/
theorem claim_C2_bug :
    ¬ clashOrdered STATE_DICT_MAPPING ∧
    convertKey "transformer.output_layer.weight".toList
      = "model.output_layer.weight".toList ∧
    convertKey "transformer.output_layer.weight".toList ≠ "lm_head.weight".toList := by
  refine ⟨?_, by decide, by decide⟩
  unfold clashOrdered
  decide

/-- C10: every parameter name beginning with `transformer.output_layer.` is
renamed to a name beginning with `model.output_layer.`, never one beginning
with `lm_head.`, because the `transformer.` rule fires first. -/
theorem claim_C10 (key : List Char)
    (h : isPrefixB "transformer.output_layer.".toList key = true) :
    isPrefixB "model.output_layer.".toList (convertKey key) = true ∧
    isPrefixB "lm_head.".toList (convertKey key) = false := by
  have h1 := convertKey_output_layer key h
  refine ⟨h1, ?_⟩
  obtain ⟨w, hw⟩ := (isPrefixB_iff_append _ _).1 h1
  rw [hw]
  exact isPrefixB_take_false (by decide) w

theorem claim_C10_witness :
    isPrefixB "transformer.output_layer.".toList
        "transformer.output_layer.weight".toList = true ∧
    (isPrefixB "model.output_layer.".toList
        (convertKey "transformer.output_layer.weight".toList) = true ∧
      isPrefixB "lm_head.".toList
        (convertKey "transformer.output_layer.weight".toList) = false) :=
  ⟨by decide, claim_C10 "transformer.output_layer.weight".toList (by decide)⟩

/-- C8 counterexample: with input entries `transformer.x` and `model.x`, both
keys remap to `model.x`; the later entry overwrites the earlier one, so the
output does not contain the first entry's remapped name bound to its value. -/
theorem claim_C8_counterexample :
    convertKey "transformer.x".toList = "model.x".toList ∧
    ("model.x".toList, (0 : Nat)) ∉
      convert_state_dict [("transformer.x".toList, (0 : Nat)),
        ("model.x".toList, 1)] := by decide

/-- C8 (amended): provided the remapped keys are pairwise distinct,
`convert_state_dict` changes only names: the output is exactly the entrywise
renaming of the input, every entry's remapped name is bound to its identical
value, and every output value is one of the input values unchanged. -/
theorem claim_C8 {V : Type} (sd : List (List Char × V))
    (hinj : (sd.map (fun kv => convertKey kv.1)).Nodup) :
    convert_state_dict sd = sd.map (fun kv => (convertKey kv.1, kv.2)) ∧
    (∀ kv ∈ sd, (convertKey kv.1, kv.2) ∈ convert_state_dict sd) ∧
    (∀ kv2 ∈ convert_state_dict sd, kv2.2 ∈ sd.map Prod.snd) := by
  have heq := convert_state_dict_eq_map sd hinj
  refine ⟨heq, ?_, ?_⟩
  · intro kv hkv
    rw [heq]
    exact List.mem_map_of_mem _ hkv
  · intro kv2 h2
    rw [heq] at h2
    obtain ⟨kv, hkv, hkv2⟩ := List.mem_map.1 h2
    have hsnd : kv2.2 = kv.2 := by
      rw [← hkv2]
    rw [hsnd]
    exact List.mem_map_of_mem Prod.snd hkv

theorem claim_C8_witness :
    ([("transformer.a.weight".toList, (0 : Nat)),
      ("transformer.b.weight".toList, 1)].map
        (fun kv => convertKey kv.1)).Nodup ∧
    convert_state_dict [("transformer.a.weight".toList, (0 : Nat)),
        ("transformer.b.weight".toList, 1)]
      = [("model.a.weight".toList, 0), ("model.b.weight".toList, 1)] := by
  refine ⟨by decide, ?_⟩
  have h := claim_C8 [("transformer.a.weight".toList, (0 : Nat)),
    ("transformer.b.weight".toList, 1)] (by decide)
  rw [h.1]
  decide

/-- C3 counterexample: with input directory `a-1-b` (a hyphenated directory
name), both shard ordinals parse as `1` from the joined path, so the stable
sort keeps the listing order: merging writes the shards in listing order
`[2, 1]`, while sorting by the second hyphen-delimited segment of each
FILENAME (the claim's ordering) yields `[1, 2]`. -/
theorem claim_C3_counterexample :
    merge_safetensors "a-1-b".toList
        [("model-00002-of-00002.safetensors".toList, [2]),
         ("model-00001-of-00002.safetensors".toList, [1])] = some [2, 1] ∧
    specMergeBytes
        [("model-00002-of-00002.safetensors".toList, [2]),
         ("model-00001-of-00002.safetensors".toList, [1])] = some [1, 2] := by
  refine ⟨by decide, by decide⟩

/-- C3 (amended): when the input directory name contains no hyphen (so the
ordinal parsed from the joined path equals the second hyphen-delimited
segment of the filename), every shard filename has a parseable ordinal, and
the ordinals are pairwise distinct, `merge_safetensors` writes exactly the
concatenation of the matching shards' bytes in ascending ordinal order,
regardless of the order in which the directory listing enumerates the
files. -/
theorem claim_C3 (dir : List Char) (listing s : List (List Char × List Nat))
    (hdir : '-' ∉ dir)
    (_hne : listing.filter (fun fc => endsWithB fc.1 safetensorsSuffix) ≠ [])
    (hkeys : ∀ fc ∈ listing.filter (fun fc => endsWithB fc.1 safetensorsSuffix),
      (ordKey fc.1).isSome = true)
    (hnodup : ((listing.filter (fun fc => endsWithB fc.1 safetensorsSuffix)).map
      (fun fc => ordKey fc.1)).Nodup)
    (hperm : List.Perm s (listing.filter (fun fc => endsWithB fc.1 safetensorsSuffix)))
    (hsorted : s.Pairwise (fun a b => (ordKey a.1).getD 0 ≤ (ordKey b.1).getD 0)) :
    merge_safetensors dir listing = some (s.flatMap (fun fc => fc.2)) :=
  merge_safetensors_eq dir listing s hdir hkeys hnodup hperm hsorted

theorem claim_C3_witness :
    ('-' ∉ "indir".toList) ∧
    merge_safetensors "indir".toList
        [("model-00002-of-00003.safetensors".toList, [4, 5]),
         ("readme.txt".toList, [9]),
         ("model-00003-of-00003.safetensors".toList, [6]),
         ("model-00001-of-00003.safetensors".toList, [1, 2, 3])]
      = some [1, 2, 3, 4, 5, 6] := by
  refine ⟨by decide, ?_⟩
  have h := claim_C3 "indir".toList
    [("model-00002-of-00003.safetensors".toList, [4, 5]),
     ("readme.txt".toList, [9]),
     ("model-00003-of-00003.safetensors".toList, [6]),
     ("model-00001-of-00003.safetensors".toList, [1, 2, 3])]
    [("model-00001-of-00003.safetensors".toList, [1, 2, 3]),
     ("model-00002-of-00003.safetensors".toList, [4, 5]),
     ("model-00003-of-00003.safetensors".toList, [6])]
    (by decide) (by decide) (by decide) (by decide) (by decide) (by decide)
  exact h.trans (by decide)

/-- C7 counterexample: with the hyphenated input directory name `a-b`, a
shard whose FILENAME ordinal segment is perfectly numeric still makes
`merge_safetensors` raise, because the sort key is parsed from the joined
path (`a-b/model-...`, whose second hyphen-delimited token is `b/model`):
a third failure mode beyond the two the claim states. -/
theorem claim_C7_counterexample :
    (ordKey "model-00001-of-00002.safetensors".toList).isSome = true ∧
    merge_safetensors "a-b".toList
      [("model-00001-of-00002.safetensors".toList, [1])] = none := by
  refine ⟨by decide, by decide⟩

/-- C7 (amended): `merge_safetensors` has exactly the two stated failure modes (with a
hyphen-free input directory name). When no file matches the `.safetensors`
suffix it writes an empty output and does not raise; when some matching
file's second hyphen-delimited token is absent or non-numeric it raises
before writing anything; otherwise it succeeds. -/
theorem claim_C7 (dir : List Char) (listing : List (List Char × List Nat))
    (hdir : '-' ∉ dir) :
    (listing.filter (fun fc => endsWithB fc.1 safetensorsSuffix) = [] →
      merge_safetensors dir listing = some []) ∧
    (∀ fc ∈ listing.filter (fun fc => endsWithB fc.1 safetensorsSuffix),
      ordKey fc.1 = none → merge_safetensors dir listing = none) ∧
    ((∀ fc ∈ listing.filter (fun fc => endsWithB fc.1 safetensorsSuffix),
      (ordKey fc.1).isSome = true) → (merge_safetensors dir listing).isSome = true) := by
  refine ⟨?_, ?_, ?_⟩
  · intro h
    simp [merge_safetensors, h, keyFiles, sortByKey]
  · intro fc hfc hnone
    have hmem : (pathJoin dir fc.1, fc.2) ∈ (listing.filter
        (fun fc => endsWithB fc.1 safetensorsSuffix)).map
          (fun fc => (pathJoin dir fc.1, fc.2)) := List.mem_map_of_mem _ hfc
    have hkey : ordKey (pathJoin dir fc.1, fc.2).1 = none := by
      show ordKey (pathJoin dir fc.1) = none
      rw [ordKey_pathJoin dir fc.1 hdir]
      exact hnone
    simp [merge_safetensors, keyFiles_none _ hmem hkey]
  · intro hall
    have hkeys2 : ∀ gc ∈ (listing.filter (fun fc => endsWithB fc.1 safetensorsSuffix)).map
        (fun fc => (pathJoin dir fc.1, fc.2)), (ordKey gc.1).isSome = true := by
      intro gc hgc
      obtain ⟨fc, hfc, rfl⟩ := List.mem_map.1 hgc
      show (ordKey (pathJoin dir fc.1)).isSome = true
      rw [ordKey_pathJoin dir fc.1 hdir]
      exact hall fc hfc
    simp [merge_safetensors, keyFiles_eq hkeys2]

theorem claim_C7_witness :
    ('-' ∉ "indir".toList) ∧
    merge_safetensors "indir".toList [("notashard.bin".toList, [5])] = some [] ∧
    merge_safetensors "indir".toList [("oops.safetensors".toList, [1])] = none ∧
    (merge_safetensors "indir".toList
      [("model-00001-of-00002.safetensors".toList, [3])]).isSome = true :=
  ⟨by decide,
   (claim_C7 "indir".toList [("notashard.bin".toList, [5])] (by decide)).1 (by decide),
   (claim_C7 "indir".toList [("oops.safetensors".toList, [1])] (by decide)).2.1
     ("oops.safetensors".toList, [1]) (by decide) (by decide),
   (claim_C7 "indir".toList [("model-00001-of-00002.safetensors".toList, [3])]
     (by decide)).2.2 (by decide)⟩

/-- C4: config translation is total over the required-field set and fails on
omission. With every required field present (and, when the multi-query flag
is truthy, the group-count field too) it returns the target record without
raising; with any one required field absent — or the group-count field
absent while the flag is truthy — it raises a missing-key error (`none`),
substituting no default. -/
theorem claim_C4 :
    (∀ (cfg : List (String × ConfigVal)) (mv : ConfigVal),
      dictLookup cfg "multi_query_attention" = some mv →
      (∀ k ∈ requiredConfigKeys, hasKey cfg k = true) →
      (pyTruthy mv = true → hasKey cfg "multi_query_group_num" = true) →
      (convert_config cfg).isSome = true) ∧
    (∀ (cfg : List (String × ConfigVal)), ∀ k ∈ requiredConfigKeys,
      hasKey cfg k = false → convert_config cfg = none) ∧
    (∀ (cfg : List (String × ConfigVal)) (mv : ConfigVal),
      dictLookup cfg "multi_query_attention" = some mv → pyTruthy mv = true →
      hasKey cfg "multi_query_group_num" = false → convert_config cfg = none) := by
  refine ⟨?_, ?_, ?_⟩
  · intro cfg mv hmqa hall hgrp
    obtain ⟨t, rest, heq, _⟩ := convert_config_total cfg mv hall hmqa hgrp
    rw [heq]
    rfl
  · intro cfg k hk habs
    exact convert_config_none_of_missing cfg k hk habs
  · intro cfg mv hmqa ht habs
    cases hcc : convert_config cfg with
    | none => rfl
    | some p =>
      have hreq := (convert_config_requires cfg p.1 p.2 (by rw [hcc])).2
      rw [hreq mv hmqa ht] at habs
      exact absurd habs (by simp)

theorem claim_C4_witness :
    (convert_config sampleConfig).isSome = true ∧
    convert_config (sampleConfig.filter (fun kv => kv.1 ≠ "hidden_size")) = none ∧
    convert_config (sampleConfig.filter
      (fun kv => kv.1 ≠ "multi_query_group_num")) = none :=
  ⟨claim_C4.1 sampleConfig (ConfigVal.vBool true) (by decide) (by decide)
      (fun _ => by decide),
   claim_C4.2.1 (sampleConfig.filter (fun kv => kv.1 ≠ "hidden_size"))
     "hidden_size" (by decide) (by decide),
   claim_C4.2.2 (sampleConfig.filter (fun kv => kv.1 ≠ "multi_query_group_num"))
     (ConfigVal.vBool true) (by decide) (by decide) (by decide)⟩

/-- C5: in `convert_config`, `num_key_value_heads` equals the source
`multi_query_group_num` when `multi_query_attention` is truthy and equals
the source `num_attention_heads` when it is not, and `rope_theta` is 10000
times the source `rope_ratio`; in particular the sample config with
`multi_query_attention = true`, `multi_query_group_num = 2`,
`num_attention_heads = 32` and `rope_ratio = 1.5` yields
`num_key_value_heads = 2` and `rope_theta = 15000.0`. -/
theorem claim_C5 :
    (∀ (cfg : List (String × ConfigVal)) (mv : ConfigVal),
      dictLookup cfg "multi_query_attention" = some mv →
      (∀ k ∈ requiredConfigKeys, hasKey cfg k = true) →
      (pyTruthy mv = true → hasKey cfg "multi_query_group_num" = true) →
      ∃ t rest, convert_config cfg = some (t, rest) ∧
        (∀ g, pyTruthy mv = true → dictLookup cfg "multi_query_group_num" = some g →
          t.num_key_value_heads = g) ∧
        (∀ n, pyTruthy mv = false → dictLookup cfg "num_attention_heads" = some n →
          t.num_key_value_heads = n) ∧
        (∀ r, dictLookup cfg "rope_ratio" = some r →
          t.rope_theta = mulFloat10000 r)) ∧
    (convert_config sampleConfig).map
        (fun p => (p.1.num_key_value_heads, p.1.rope_theta))
      = some (ConfigVal.vInt 2, ConfigVal.vFloat 15000) := by
  constructor
  · intro cfg mv hmqa hall hgrp
    exact convert_config_total cfg mv hall hmqa hgrp
  · simp [convert_config, dictPop, sampleConfig, pyTruthy, mulFloat10000]
    norm_num

theorem claim_C5_witness :
    (dictLookup sampleConfig "multi_query_attention" = some (ConfigVal.vBool true)) ∧
    ∃ t rest, convert_config sampleConfig = some (t, rest) ∧
      t.num_key_value_heads = ConfigVal.vInt 2 ∧
      t.rope_theta = ConfigVal.vFloat 15000 := by
  refine ⟨by decide, ?_⟩
  obtain ⟨t, rest, heq, hg, _, hr⟩ := claim_C5.1 sampleConfig (ConfigVal.vBool true)
    (by decide) (by decide) (fun _ => by decide)
  refine ⟨t, rest, heq, ?_, ?_⟩
  · exact hg (ConfigVal.vInt 2) rfl (by decide)
  · have h := hr (ConfigVal.vFloat (3 / 2)) rfl
    rw [h]
    show ConfigVal.vFloat (10000 * (3 / 2 : ℚ)) = ConfigVal.vFloat 15000
    norm_num

/-- C6: if a required source-config field is missing, `convert_glm_model`
raises during config translation and aborts before any output is written:
no config file, no merged weight file, no model weight file and no
tokenizer file is produced. -/
theorem claim_C6 (cfg : List (String × ConfigVal)) (dir : List Char)
    (listing : List (List Char × List Nat))
    (safeLoad : List Nat → List (List Char × List Nat))
    (loadOk : List (List Char × List Nat) → Bool) (tokOk : Bool)
    (k : String) (hk : k ∈ requiredConfigKeys) (habs : hasKey cfg k = false) :
    convert_glm_model cfg dir listing safeLoad loadOk tokOk = ([], false) := by
  simp [convert_glm_model, convert_config_none_of_missing cfg k hk habs]

theorem claim_C6_witness :
    ("num_attention_heads" ∈ requiredConfigKeys ∧
      hasKey ([] : List (String × ConfigVal)) "num_attention_heads" = false) ∧
    convert_glm_model [] [] [] (fun _ => []) (fun _ => true) true = ([], false) :=
  ⟨⟨by decide, by decide⟩,
   claim_C6 [] [] [] (fun _ => []) (fun _ => true) true
     "num_attention_heads" (by decide) (by decide)⟩

/-- C9: the rebuilt tokenizer's post-processor is a sequence of a byte-level
step without offset trimming followed by a template binding `[gMASK]` to id
151331 and `<sop>` to id 151333; it wraps a single input `A` as
`[gMASK] <sop> A` with type ids all 0, and a pair `A, B` as
`[gMASK] <sop> A B` with `A`'s segment carrying type id 0 and `B`'s
carrying 1. -/
theorem claim_C9 : ∀ A B : List Nat,
    ppTokens glm_post_processor (PPInput.single A)
      = some (151331 :: 151333 :: A, 0 :: 0 :: List.replicate A.length 0) ∧
    ppTokens glm_post_processor (PPInput.pair A B)
      = some (151331 :: 151333 :: (A ++ B),
          0 :: 0 :: (List.replicate A.length 0 ++ List.replicate B.length 1)) ∧
    glm_post_processor = PostProcessor.seqPP [PostProcessor.byteLevel false,
      PostProcessor.templateProcessing "[gMASK]:0 <sop>:0 $A:0"
        "[gMASK]:0 <sop>:0 $A:0 $B:1" [("[gMASK]", 151331), ("<sop>", 151333)]] := by
  intro A B
  have hps : parseTemplate [("[gMASK]", 151331), ("<sop>", 151333)]
        "[gMASK]:0 <sop>:0 $A:0"
      = some [Piece.tok 151331 0, Piece.tok 151333 0, Piece.spliceA 0] := by decide
  have hpp : parseTemplate [("[gMASK]", 151331), ("<sop>", 151333)]
        "[gMASK]:0 <sop>:0 $A:0 $B:1"
      = some [Piece.tok 151331 0, Piece.tok 151333 0, Piece.spliceA 0,
          Piece.spliceB 1] := by decide
  refine ⟨?_, ?_, rfl⟩
  · simp [ppTokens, glm_post_processor, ppSeqTokens, hps, applyPieces, pieceOut]
  · simp [ppTokens, glm_post_processor, ppSeqTokens, hpp, applyPieces, pieceOut]
